import Mathlib

/-!
Verification of the klend-sdk financial simulation core (reserve.ts, obligation.ts)
against its natural-language specification.

The TypeScript code is shallowly embedded: decimal.js arbitrary-precision values
become exact rationals (ℚ), on-chain integers (BN) become ℕ, throwing functions
return `Except String`, and the handful of helpers living outside the provided
sources (constants, the fraction codec, the rate-curve evaluator, the small
utils) are modelled from the specification, each marked with a
doc comment starting with "Modelled from the spec:".
-/

namespace Klend

/-- Modelled from the spec: §4.3 names a slot-duration adjustment factor
`1000 / slotsPerSecond / recentSlotDurationMs`; the protocol constant is two
slots per second. -/
def SLOTS_PER_SECOND : ℚ := 2

/-- Modelled from the spec: §4.3 compounding uses `base = rate / slotsPerYear`;
with two slots per second a (365-day) year has 63 072 000 slots. -/
def SLOTS_PER_YEAR : ℚ := 63072000

/-- Modelled from the spec: the withdrawal caps reset "after one day's worth of
slots"; one day is 172 800 slots at two slots per second. -/
def SLOTS_PER_DAY : ℕ := 172800

/-- Modelled from the spec: §3 RateCurvePoint values are "encoded as basis
points (0–10000)", so 100% is 10 000 bps. -/
def ONE_HUNDRED_PCT_IN_BPS : ℕ := 10000

/-- Modelled from the spec: §3 ScaledFraction converts by dividing the raw
integer by the scale factor 2^60 (`new Fraction(sf).toDecimal()`). -/
def fractionToDecimal (sf : ℕ) : ℚ := (sf : ℚ) / 2 ^ 60

/-- Modelled from the spec: §4.4 "All resulting per-field values are floored at
zero" — `positiveOrZero` from the utils module. -/
def positiveOrZero (x : ℚ) : ℚ := max x 0

/-- Modelled from the spec: §4.4 ratios are "0 if deposit is 0" / "0 ... if
netValue is 0" — `valueOrZero` maps the non-finite result of a decimal division
by zero to 0, which over an exact-rational embedding is a guarded division. -/
def divOrZero (a b : ℚ) : ℚ := if b = 0 then 0 else a / b

/-- One control point of the borrow-rate curve (idl type CurvePointFields). -/
structure CurvePoint where
  utilizationRateBps : ℕ
  borrowRateBps : ℕ
deriving DecidableEq, Repr

/-- reserve.ts `truncateBorrowCurve`: walk the points in order, emitting
`(utilizationRateBps/10000, borrowRateBps/10000)`, and stop right after the
first point at 100% utilization. -/
def truncateBorrowCurve : List CurvePoint → List (ℚ × ℚ)
  | [] => []
  | p :: rest =>
    ((p.utilizationRateBps : ℚ) / (ONE_HUNDRED_PCT_IN_BPS : ℚ),
      (p.borrowRateBps : ℚ) / (ONE_HUNDRED_PCT_IN_BPS : ℚ)) ::
    (if p.utilizationRateBps = ONE_HUNDRED_PCT_IN_BPS then []
     else truncateBorrowCurve rest)

/-- Modelled from the spec: §4.2 rate-curve evaluation (`getBorrowRate` from the
curve utils, absent from the provided sources). Boundary utilizations return
the boundary rate, interior ones interpolate linearly between the bracketing
points, a degenerate bracket (`u1 = u0`) returns `r0`, and an empty curve is an
error. -/
def getBorrowRate (utilization : ℚ) : List (ℚ × ℚ) → Except String ℚ
  | [] => .error "Empty borrow rate curve"
  | [p] => .ok p.2
  | p :: q :: rest =>
    if utilization ≤ p.1 then .ok p.2
    else if utilization ≤ q.1 then
      .ok (if q.1 = p.1 then p.2
           else p.2 + (q.2 - p.2) * (utilization - p.1) / (q.1 - p.1))
    else getBorrowRate utilization (q :: rest)

/-- Daily withdrawal cap state (configCapacity / currentTotal). -/
structure WithdrawalCaps where
  configCapacity : ℕ
  currentTotal : ℕ
deriving DecidableEq, Repr

/-- The reserve liquidity fields the simulation core reads. -/
structure ReserveLiquidity where
  mintPubkey : ℕ
  availableAmount : ℕ
  borrowedAmountSf : ℕ
  accumulatedProtocolFeesSf : ℕ
  accumulatedReferrerFeesSf : ℕ
  pendingReferrerFeesSf : ℕ
  mintDecimals : ℕ
  cumulativeBorrowRateBsf : List ℕ
deriving DecidableEq, Repr

/-- The reserve config fields the simulation core reads
(`borrowRateCurve` stands for `borrowRateCurve.points`). -/
structure ReserveConfig where
  protocolTakeRatePct : ℕ
  hostFixedInterestRateBps : ℕ
  borrowFeeSf : ℕ
  borrowRateCurve : List CurvePoint
  borrowLimit : ℕ
  borrowFactorPct : ℕ
  loanToValuePct : ℕ
  liquidationThresholdPct : ℕ
  elevationGroups : List ℕ
  disableUsageAsCollOutsideEmode : ℕ
  debtWithdrawalCap : WithdrawalCaps
  depositWithdrawalCap : WithdrawalCaps
deriving DecidableEq, Repr

structure LastUpdate where
  slot : ℕ
deriving DecidableEq, Repr

/-- Decoded on-chain reserve state (idl `Reserve`), restricted to the fields
the claims exercise. -/
structure Reserve where
  liquidity : ReserveLiquidity
  config : ReserveConfig
  lastUpdate : LastUpdate
deriving DecidableEq, Repr

/-- reserve.ts `KaminoReserve`: state snapshot plus oracle price and the recent
slot duration; `tokenOraclePrice` is `tokenOraclePrice.price`. -/
structure KaminoReserve where
  state : Reserve
  address : ℕ
  tokenOraclePrice : ℚ
  recentSlotDurationMs : ℚ
deriving DecidableEq, Repr

namespace KaminoReserve

def getBorrowedAmount (r : KaminoReserve) : ℚ :=
  fractionToDecimal r.state.liquidity.borrowedAmountSf

def getLiquidityAvailableAmount (r : KaminoReserve) : ℚ :=
  (r.state.liquidity.availableAmount : ℚ)

def getOracleMarketPrice (r : KaminoReserve) : ℚ := r.tokenOraclePrice

def getAccumulatedProtocolFees (r : KaminoReserve) : ℚ :=
  fractionToDecimal r.state.liquidity.accumulatedProtocolFeesSf

def getAccumulatedReferrerFees (r : KaminoReserve) : ℚ :=
  fractionToDecimal r.state.liquidity.accumulatedReferrerFeesSf

def getPendingReferrerFees (r : KaminoReserve) : ℚ :=
  fractionToDecimal r.state.liquidity.pendingReferrerFeesSf

def getBorrowFee (r : KaminoReserve) : ℚ :=
  fractionToDecimal r.state.config.borrowFeeSf

def getFixedHostInterestRate (r : KaminoReserve) : ℚ :=
  (r.state.config.hostFixedInterestRateBps : ℚ) / 10000

def getTotalSupply (r : KaminoReserve) : ℚ :=
  getLiquidityAvailableAmount r + getBorrowedAmount r
    - getAccumulatedProtocolFees r - getAccumulatedReferrerFees r
    - getPendingReferrerFees r

def getMintFactor (r : KaminoReserve) : ℚ :=
  (10 : ℚ) ^ r.state.liquidity.mintDecimals

def getBorrowFactor (r : KaminoReserve) : ℚ :=
  (r.state.config.borrowFactorPct : ℚ) / 100

def getDebtWithdrawalCapCapacity (r : KaminoReserve) : ℚ :=
  (r.state.config.debtWithdrawalCap.configCapacity : ℚ)

/-- Truncated ℕ subtraction models `Math.max(slot - lastUpdate, 0)`. -/
def getDebtWithdrawalCapCurrent (r : KaminoReserve) (slot : ℕ) : ℚ :=
  if SLOTS_PER_DAY < slot - r.state.lastUpdate.slot then 0
  else (r.state.config.debtWithdrawalCap.currentTotal : ℚ)

def getDepositWithdrawalCapCapacity (r : KaminoReserve) : ℚ :=
  (r.state.config.depositWithdrawalCap.configCapacity : ℚ)

def getDepositWithdrawalCapCurrent (r : KaminoReserve) (slot : ℕ) : ℚ :=
  if SLOTS_PER_DAY < slot - r.state.lastUpdate.slot then 0
  else (r.state.config.depositWithdrawalCap.currentTotal : ℚ)

/-- `stats.reserveBorrowLimit` as cached by `formatReserveData`. -/
def statsReserveBorrowLimit (r : KaminoReserve) : ℚ :=
  (r.state.config.borrowLimit : ℚ)

/-- `stats.loanToValuePct` as cached by `formatReserveData` (already ÷100). -/
def statsLoanToValuePct (r : KaminoReserve) : ℚ :=
  (r.state.config.loanToValuePct : ℚ) / 100

/-- `stats.liquidationThreshold` as cached by `formatReserveData`. -/
def statsLiquidationThreshold (r : KaminoReserve) : ℚ :=
  (r.state.config.liquidationThresholdPct : ℚ) / 100

/-- `stats.borrowFactor` as cached by `formatReserveData` (raw pct, not ÷100). -/
def statsBorrowFactor (r : KaminoReserve) : ℚ :=
  (r.state.config.borrowFactorPct : ℚ)

/-- `stats.decimals` as cached by `formatReserveData`. -/
def statsDecimals (r : KaminoReserve) : ℕ := r.state.liquidity.mintDecimals

/-- reserve.ts `calculateUtilizationRatio`: borrowed / total supply, 0 when
the supply is zero. -/
def calculateUtilizationRate (r : KaminoReserve) : ℚ :=
  let totalBorrows := getBorrowedAmount r
  let totalSupply := getTotalSupply r
  if totalSupply = 0 then 0 else totalBorrows / totalSupply

def slotAdjustmentFactor (r : KaminoReserve) : ℚ :=
  1000 / SLOTS_PER_SECOND / r.recentSlotDurationMs

/-- reserve.ts `calculateBorrowAPR`: curve rate at the current utilization,
scaled by the slot-duration adjustment factor. -/
def calculateBorrowAPR (r : KaminoReserve) : Except String ℚ :=
  (getBorrowRate (calculateUtilizationRate r)
      (truncateBorrowCurve r.state.config.borrowRateCurve)).map
    (fun rate => rate * slotAdjustmentFactor r)

end KaminoReserve

/-- reserve.ts `approximateCompoundedInterest`: the on-chain Taylor
approximation. Slots 0–4 are special-cased (4 via repeated squaring); the
general case is the third-order expansion. -/
def approximateCompoundedInterest (rate : ℚ) (elapsedSlots : ℕ) : ℚ :=
  let base := rate / SLOTS_PER_YEAR
  if elapsedSlots = 0 then 1
  else if elapsedSlots = 1 then base + 1
  else if elapsedSlots = 2 then (base + 1) * (base + 1)
  else if elapsedSlots = 3 then (base + 1) * (base + 1) * (base + 1)
  else if elapsedSlots = 4 then
    let pow2 := (base + 1) * (base + 1)
    pow2 * pow2
  else
    let exp : ℚ := (elapsedSlots : ℚ)
    let expMinus1 := exp - 1
    let expMinus2 := exp - 2
    let basePow2 := base * base
    let basePow3 := basePow2 * base
    let firstTerm := base * exp
    let secondTerm := basePow2 * exp * expMinus1 / 2
    let thirdTerm := basePow3 * exp * expMinus1 * expMinus2 / 6
    1 + firstTerm + secondTerm + thirdTerm

/-- The record returned by reserve.ts `compoundInterest`. -/
structure CompoundResult where
  newDebt : ℚ
  netNewDebt : ℚ
  variableProtocolFee : ℚ
  fixedHostFee : ℚ
  absoluteReferralFee : ℚ
  maxReferralFees : ℚ
  newAccProtocolFees : ℚ
  pendingReferralFees : ℚ
deriving DecidableEq, Repr

namespace KaminoReserve

/-- reserve.ts `compoundInterest`: compound the current borrow rate (plus the
fixed host rate) over the elapsed slots and split the accrued debt into
protocol, host and referral fees. -/
def compoundInterest (r : KaminoReserve) (slotsElapsed : ℕ)
    (referralFeeBps : ℕ) : Except String CompoundResult :=
  (calculateBorrowAPR r).map fun currentBorrowRate =>
    let protocolTakeRate := (r.state.config.protocolTakeRatePct : ℚ) / 100
    let referralRate := (referralFeeBps : ℚ) / 10000
    let fixedHostInterestRate := getFixedHostInterestRate r
    let compoundedInterestRate :=
      approximateCompoundedInterest (currentBorrowRate + fixedHostInterestRate)
        slotsElapsed
    let compoundedFixedRate :=
      approximateCompoundedInterest fixedHostInterestRate slotsElapsed
    let previousDebt := getBorrowedAmount r
    let newDebt := previousDebt * compoundedInterestRate
    let fixedHostFee := previousDebt * compoundedFixedRate - previousDebt
    let netNewDebt := newDebt - previousDebt - fixedHostFee
    let variableProtocolFee := netNewDebt * protocolTakeRate
    let absoluteReferralFee := protocolTakeRate * referralRate
    let maxReferralFees := netNewDebt * absoluteReferralFee
    let newAccProtocolFees := variableProtocolFee + fixedHostFee
      - maxReferralFees + getAccumulatedProtocolFees r
    let pendingReferralFees := getPendingReferrerFees r + maxReferralFees
    ⟨newDebt, netNewDebt, variableProtocolFee, fixedHostFee,
      absoluteReferralFee, maxReferralFees, newAccProtocolFees,
      pendingReferralFees⟩

end KaminoReserve

/-- The pair returned by reserve.ts `getEstimatedDebtAndSupply`. -/
structure DebtAndSupply where
  totalBorrow : ℚ
  totalSupply : ℚ
deriving DecidableEq, Repr

namespace KaminoReserve

/-- reserve.ts `getEstimatedDebtAndSupply`: with zero slots elapsed return the
stale figures, otherwise project debt and total supply through
`compoundInterest` (ℕ subtraction models `Math.max(slot - lastUpdate, 0)`). -/
def getEstimatedDebtAndSupply (r : KaminoReserve) (slot referralFeeBps : ℕ) :
    Except String DebtAndSupply :=
  let slotsElapsed := slot - r.state.lastUpdate.slot
  if slotsElapsed = 0 then .ok ⟨getBorrowedAmount r, getTotalSupply r⟩
  else
    (compoundInterest r slotsElapsed referralFeeBps).map fun c =>
      ⟨c.newDebt,
        getLiquidityAvailableAmount r + c.newDebt - c.newAccProtocolFees
          - getAccumulatedReferrerFees r - c.pendingReferralFees⟩

/-- reserve.ts `getEstimatedTotalSupply`. -/
def getEstimatedTotalSupply (r : KaminoReserve) (slot referralFeeBps : ℕ) :
    Except String ℚ :=
  (getEstimatedDebtAndSupply r slot referralFeeBps).map (fun ds => ds.totalSupply)

end KaminoReserve

/-- Modelled from the spec: C9's independent rendering of curve truncation —
"the longest prefix of the list ending at the first point whose
utilizationRateBps equals 10000" (the whole list when no such point exists),
each point mapped to `(u/10000, r/10000)`. Stated with takeWhile/dropWhile so
it can be compared with the source's loop. -/
def specTruncateBorrowCurve (points : List CurvePoint) : List (ℚ × ℚ) :=
  (points.takeWhile (fun p => p.utilizationRateBps != ONE_HUNDRED_PCT_IN_BPS)
      ++ (points.dropWhile
            (fun p => p.utilizationRateBps != ONE_HUNDRED_PCT_IN_BPS)).take 1).map
    (fun p => ((p.utilizationRateBps : ℚ) / 10000, (p.borrowRateBps : ℚ) / 10000))

/-- JS `Map.set` inserts a new key at the end and leaves an existing key where
it is; for key-presence reasoning only first-occurrence insertion matters. -/
def insertOnce (l : List ℕ) (g : ℕ) : List ℕ := if g ∈ l then l else l ++ [g]

namespace KaminoObligation

/-- obligation.ts `getElevationGroupsForReserves`: count every non-zero entry
of every reserve's configured `elevationGroups` in a `Map` (so duplicates
inside one reserve's list are counted twice), then keep the groups whose count
equals the number of reserves. -/
def getElevationGroupsForReserves (reserves : List KaminoReserve) : List ℕ :=
  let allGroups :=
    (reserves.map
      (fun r => r.state.config.elevationGroups.filter (fun g => g != 0))).flatten
  let keys := allGroups.foldl insertOnce []
  keys.filter (fun g => allGroups.count g = reserves.length)

end KaminoObligation

/-- The obligation borrow entry fields needed by the cumulative-rate claims
(idl `ObligationLiquidity`). -/
structure ObligationLiquidity where
  cumulativeBorrowRateBsf : List ℕ
deriving DecidableEq, Repr

namespace KaminoReserve

/-- reserve.ts `getCumulativeBorrowRate`: copy the limb array
(`[...value]`, so the stored array is untouched), reverse the copy, reduce by
add-then-shift (`prev.iadd(curr).ishrn(64)` — `BN` floor arithmetic), and
decode the accumulator as a 2^60 scaled fraction. -/
def getCumulativeBorrowRate (r : KaminoReserve) : ℚ :=
  fractionToDecimal
    ((r.state.liquidity.cumulativeBorrowRateBsf.reverse).foldl
      (fun prev curr => (prev + curr) / 2 ^ 64) 0)

end KaminoReserve

namespace KaminoObligation

/-- The loop of obligation.ts `getCumulativeBorrowRate`:
`accSf = accSf.add(value)` rebinds the accumulator, while the following
`accSf.shrn(64);` allocates `accSf / 2^64` and discards it (`BN.shrn` is
non-mutating), so the shift never reaches the accumulator. -/
def getCumulativeBorrowRateLoop : List ℕ → ℕ → ℕ
  | [], accSf => accSf
  | v :: rest, accSf =>
    let accSf' := accSf + v
    let _discardedShift := accSf' / 2 ^ 64
    getCumulativeBorrowRateLoop rest accSf'

/-- obligation.ts static `getCumulativeBorrowRate`: iterates over
`value.reverse()` — `Array.prototype.reverse` reverses the stored limb array in
place, so the call both returns a decimal and mutates the borrow's state; the
model returns the pair (result, stored array after the call). -/
def getCumulativeBorrowRate (borrow : ObligationLiquidity) : ℚ × List ℕ :=
  let reversed := borrow.cumulativeBorrowRateBsf.reverse
  (fractionToDecimal (getCumulativeBorrowRateLoop reversed 0), reversed)

end KaminoObligation

/-- obligation.ts `Position`: one obligation's exposure to one reserve. -/
structure Position where
  reserveAddress : ℕ
  mintAddress : ℕ
  amount : ℚ
  marketValueRefreshed : ℚ
deriving DecidableEq, Repr

/-- obligation.ts `ObligationStats`. -/
structure ObligationStats where
  userTotalDeposit : ℚ
  userTotalBorrow : ℚ
  userTotalBorrowBorrowFactorAdjusted : ℚ
  borrowLimit : ℚ
  borrowLiquidationLimit : ℚ
  borrowUtilization : ℚ
  netAccountValue : ℚ
  loanToValue : ℚ
  liquidationLtv : ℚ
  leverage : ℚ
  potentialElevationGroupUpdate : List ℕ
deriving DecidableEq, Repr

/-- Position maps keyed by reserve address (the `PubkeyHashMap`), modelled as
association lists in insertion order. -/
abbrev PosMap := List (ℕ × Position)

/-- JS `Map.set`: overwrite an existing key in place, append a new one. -/
def mapSet (m : PosMap) (k : ℕ) (v : Position) : PosMap :=
  if m.any (fun kv => kv.1 == k) then
    m.map (fun kv => if kv.1 == k then (k, v) else kv)
  else m ++ [(k, v)]

/-- The result of a JS `for ... of` loop that keeps reassigning a variable on
every match: the last element satisfying the predicate. -/
def lastWhere {α : Type} (p : α → Bool) (l : List α) : Option α :=
  l.foldl (fun acc x => if p x then some x else acc) none

/-- Modelled from the spec: the closed action tag union of §9
`{deposit, withdraw, borrow, repay, depositAndBorrow, repayAndWithdraw, mint,
redeem}` (the `ActionType` module is not among the provided sources). -/
inductive ActionType where
  | deposit
  | withdraw
  | borrow
  | repay
  | depositAndBorrow
  | repayAndWithdraw
  | mint
  | redeem
deriving DecidableEq, Repr

/-- Modelled from the spec: an elevation-group configuration record, with the
fields the simulation reads (§3/§6). -/
structure ElevationGroup where
  id : ℕ
  ltvPct : ℕ
  liquidationThresholdPct : ℕ
deriving DecidableEq, Repr

/-- Modelled from the spec: the market context (external collaborator, §6)
restricted to reserve lookup and elevation-group configuration. -/
structure KaminoMarket where
  elevationGroups : List ElevationGroup
  reserves : List KaminoReserve
deriving DecidableEq, Repr

/-- Modelled from the spec: §6 "resolve reserve-by-mint". -/
def getReserveByMint (m : KaminoMarket) (mint : ℕ) : Option KaminoReserve :=
  m.reserves.find? (fun r => r.state.liquidity.mintPubkey == mint)

/-- Modelled from the spec: §6 "elevation-group-config-by-id"; the source
indexes `state.elevationGroups[id - 1]`, total on well-formed markets. -/
def getElevationGroup (m : KaminoMarket) (id : ℕ) : ElevationGroup :=
  m.elevationGroups.getD (id - 1) ⟨0, 0, 0⟩

/-- The decoded obligation-account fields the simulation reads. -/
structure ObligationState where
  elevationGroup : ℕ
deriving DecidableEq, Repr

/-- obligation.ts `KaminoObligation`: raw state plus the derived positions and
stats computed at construction. -/
structure KaminoObligation where
  state : ObligationState
  refreshedStats : ObligationStats
  deposits : PosMap
  borrows : PosMap
deriving DecidableEq, Repr

namespace KaminoObligation

/-- obligation.ts `calculateSimulatedBorrow`: find the borrow position and the
reserve by mint (last match of the iteration), fail when the mint has no
reserve or the obligation's elevation group is not among the reserve's
configured groups, otherwise apply the (zero-floored) value updates. -/
def calculateSimulatedBorrow (obl : KaminoObligation)
    (oldStats : ObligationStats) (oldBorrows : PosMap) (borrowAmount : ℚ)
    (mint : ℕ) (reserves : List KaminoReserve) :
    Except String (ObligationStats × PosMap) :=
  let borrowPositionOpt := lastWhere (fun kv => kv.2.mintAddress == mint) oldBorrows
  match lastWhere (fun kr => kr.state.liquidity.mintPubkey == mint) reserves with
  | none => .error "No reserve found for mint"
  | some reserve =>
    let borrowPosition := (borrowPositionOpt.map (fun kv => kv.2)).getD
      { reserveAddress := reserve.address, mintAddress := mint, amount := 0,
        marketValueRefreshed := 0 }
    if obl.state.elevationGroup ∈ reserve.state.config.elevationGroups then
      let borrowFactor := if obl.state.elevationGroup ≠ 0 then (1 : ℚ)
        else KaminoReserve.statsBorrowFactor reserve / 100
      let borrowValueUSD := borrowAmount * KaminoReserve.getOracleMarketPrice reserve
        / KaminoReserve.getMintFactor reserve
      let borrowValueBorrowFactorAdjustedUSD := borrowValueUSD * borrowFactor
      let newStats := { oldStats with
        userTotalBorrow := positiveOrZero (oldStats.userTotalBorrow + borrowValueUSD)
        userTotalBorrowBorrowFactorAdjusted := positiveOrZero
          (oldStats.userTotalBorrowBorrowFactorAdjusted
            + borrowValueBorrowFactorAdjustedUSD) }
      let newPosition := { borrowPosition with
        amount := positiveOrZero (borrowPosition.amount + borrowAmount)
        mintAddress := mint
        marketValueRefreshed := positiveOrZero
          (borrowPosition.marketValueRefreshed + borrowValueUSD) }
      .ok (newStats, mapSet oldBorrows newPosition.reserveAddress newPosition)
    else
      .error "User would have to downgrade the elevation group in order to be able to borrow from this reserve"

/-- obligation.ts `calculateSimulatedDeposit`; the divisor written in the
source as the string of `'1'` followed by `stats.decimals` zeros is
`10^decimals`. -/
def calculateSimulatedDeposit (obl : KaminoObligation)
    (oldStats : ObligationStats) (oldDeposits : PosMap) (amount : ℚ)
    (mint : ℕ) (reserves : List KaminoReserve) (market : KaminoMarket) :
    Except String (ObligationStats × PosMap) :=
  let depositPositionOpt := lastWhere (fun kv => kv.2.mintAddress == mint) oldDeposits
  match lastWhere (fun kr => kr.state.liquidity.mintPubkey == mint) reserves with
  | none => .error "No reserve found for mint"
  | some reserve =>
    let depositPosition := (depositPositionOpt.map (fun kv => kv.2)).getD
      { reserveAddress := reserve.address, mintAddress := mint, amount := 0,
        marketValueRefreshed := 0 }
    let loanToValue := if obl.state.elevationGroup ≠ 0 then
        ((getElevationGroup market obl.state.elevationGroup).ltvPct : ℚ) / 100
      else KaminoReserve.statsLoanToValuePct reserve
    let liqThreshold := if obl.state.elevationGroup ≠ 0 then
        ((getElevationGroup market
            obl.state.elevationGroup).liquidationThresholdPct : ℚ) / 100
      else KaminoReserve.statsLiquidationThreshold reserve
    if obl.state.elevationGroup ∈ reserve.state.config.elevationGroups then
      let supplyAmount := amount
      let supplyAmountMultiplierUSD := supplyAmount
        * KaminoReserve.getOracleMarketPrice reserve
        / (10 : ℚ) ^ KaminoReserve.statsDecimals reserve
      let s1 := { oldStats with
        userTotalDeposit := positiveOrZero
          (oldStats.userTotalDeposit + supplyAmountMultiplierUSD) }
      let s2 := { s1 with
        borrowLimit := positiveOrZero
          (s1.borrowLimit + supplyAmountMultiplierUSD * loanToValue) }
      let s3 := { s2 with
        borrowLiquidationLimit := positiveOrZero
          (s2.borrowLiquidationLimit + supplyAmountMultiplierUSD * liqThreshold) }
      let newStats := { s3 with
        liquidationLtv := divOrZero s3.borrowLiquidationLimit s3.userTotalDeposit }
      let newPosition := { depositPosition with
        amount := positiveOrZero (depositPosition.amount + amount)
        mintAddress := mint
        marketValueRefreshed := positiveOrZero
          (depositPosition.marketValueRefreshed
            + supplyAmount * KaminoReserve.getOracleMarketPrice reserve
              / KaminoReserve.getMintFactor reserve) }
      .ok (newStats, mapSet oldDeposits newPosition.reserveAddress newPosition)
    else
      .error "User would have to downgrade the elevation group in order to be able to deposit in this reserve"

end KaminoObligation

/-- The record returned by `getSimulatedObligationStats`. -/
structure SimulationResult where
  stats : ObligationStats
  deposits : PosMap
  borrows : PosMap
deriving DecidableEq, Repr

/-- The trailing lines of `getSimulatedObligationStats`: recompute
`netAccountValue = deposit − borrow`, then
`loanToValue = borrowBF / deposit` (0 on zero deposit), then
`leverage = deposit / netAccountValue` (0 on zero net value). -/
def finalizeSimulatedStats (stats : ObligationStats) : ObligationStats :=
  let s1 := { stats with
    netAccountValue := stats.userTotalDeposit - stats.userTotalBorrow }
  let s2 := { s1 with
    loanToValue := divOrZero s1.userTotalBorrowBorrowFactorAdjusted
      s1.userTotalDeposit }
  { s2 with leverage := divOrZero s2.userTotalDeposit s2.netAccountValue }

namespace KaminoObligation

/-- obligation.ts `getSimulatedObligationStats`: dispatch on the action tag —
withdraw and repay are the deposit/borrow legs with the negated amount, the
composite actions thread the first leg's stats into the second (note that
`repayAndWithdraw` passes the *positive* `amount` to its deposit leg), any
other tag is an error — then recompute net value, loan-to-value and
leverage. -/
def getSimulatedObligationStats (obl : KaminoObligation) (amount : ℚ)
    (action : ActionType) (mint : ℕ) (market : KaminoMarket)
    (reserves : List KaminoReserve) : Except String SimulationResult :=
  match action with
  | .deposit =>
    (calculateSimulatedDeposit obl obl.refreshedStats obl.deposits amount mint
        reserves market).map
      (fun sd => ⟨finalizeSimulatedStats sd.1, sd.2, obl.borrows⟩)
  | .borrow =>
    (calculateSimulatedBorrow obl obl.refreshedStats obl.borrows amount mint
        reserves).map
      (fun sb => ⟨finalizeSimulatedStats sb.1, obl.deposits, sb.2⟩)
  | .repay =>
    (calculateSimulatedBorrow obl obl.refreshedStats obl.borrows (-amount) mint
        reserves).map
      (fun sb => ⟨finalizeSimulatedStats sb.1, obl.deposits, sb.2⟩)
  | .withdraw =>
    (calculateSimulatedDeposit obl obl.refreshedStats obl.deposits (-amount)
        mint reserves market).map
      (fun sd => ⟨finalizeSimulatedStats sd.1, sd.2, obl.borrows⟩)
  | .depositAndBorrow =>
    (calculateSimulatedDeposit obl obl.refreshedStats obl.deposits amount mint
        reserves market).bind fun sd =>
      (calculateSimulatedBorrow obl sd.1 obl.borrows amount mint reserves).map
        fun sb => ⟨finalizeSimulatedStats sb.1, sd.2, sb.2⟩
  | .repayAndWithdraw =>
    (calculateSimulatedBorrow obl obl.refreshedStats obl.borrows (-amount) mint
        reserves).bind fun sb =>
      (calculateSimulatedDeposit obl sb.1 obl.deposits amount mint reserves
          market).map
        fun sd => ⟨finalizeSimulatedStats sd.1, sd.2, sb.2⟩
  | .mint => .error "Invalid action type for getSimulatedObligationStats"
  | .redeem => .error "Invalid action type for getSimulatedObligationStats"

/-- The reserve-dependent computation of obligation.ts `getMaxBorrowAmount`
(everything after the reserve lookup). -/
def maxBorrowForReserve (obl : KaminoObligation) (reserve : KaminoReserve)
    (slot : ℕ) : ℚ :=
  let elevationGroupActivated :=
    reserve.state.config.elevationGroups.contains obl.state.elevationGroup
      && obl.state.elevationGroup != 0
  let reserveBorrowFactor := KaminoReserve.getBorrowFactor reserve
  let borrowFactor := if elevationGroupActivated then (1 : ℚ)
    else reserveBorrowFactor
  let maxObligationBorrowPower :=
    (obl.refreshedStats.borrowLimit
        - obl.refreshedStats.userTotalBorrowBorrowFactorAdjusted)
      / borrowFactor / KaminoReserve.getOracleMarketPrice reserve
      * KaminoReserve.getMintFactor reserve
  let reserveAvailableAmount := KaminoReserve.getLiquidityAvailableAmount reserve
  let reserveBorrowCapRemained0 := KaminoReserve.statsReserveBorrowLimit reserve
    - KaminoReserve.getBorrowedAmount reserve
  let reserveBorrowCapRemained :=
    if reserve.state.config.disableUsageAsCollOutsideEmode = 1
        ∧ elevationGroupActivated = false then 0
    else reserveBorrowCapRemained0
  let maxBorrowAmount1 := min maxObligationBorrowPower
    (min reserveAvailableAmount reserveBorrowCapRemained)
  let debtWithdrawalCap := KaminoReserve.getDebtWithdrawalCapCapacity reserve
    - KaminoReserve.getDebtWithdrawalCapCurrent reserve slot
  let maxBorrowAmount2 :=
    if 0 < KaminoReserve.getDebtWithdrawalCapCapacity reserve then
      min maxBorrowAmount1 debtWithdrawalCap
    else maxBorrowAmount1
  let originationFeeRate0 := KaminoReserve.getBorrowFee reserve
  let originationFeeRate := originationFeeRate0 / (originationFeeRate0 + 1)
  let borrowFee := maxBorrowAmount2 * originationFeeRate
  let maxBorrowAmount3 := maxBorrowAmount2 - borrowFee
  max 0 maxBorrowAmount3

/-- obligation.ts `getMaxBorrowAmount`: resolve the reserve by mint (error when
absent), then clamp the borrow-power/liquidity/caps chain. -/
def getMaxBorrowAmount (obl : KaminoObligation) (market : KaminoMarket)
    (tokenMint : ℕ) (slot : ℕ) : Except String ℚ :=
  match getReserveByMint market tokenMint with
  | none => .error "Reserve not found"
  | some reserve => .ok (maxBorrowForReserve obl reserve slot)

end KaminoObligation

/-- Strip trailing `'0'` characters (decimal.js prints no trailing zeros). -/
def dropTrailingZeros (s : String) : String :=
  String.mk (s.data.reverse.dropWhile (fun c => c == '0')).reverse

/-- Left-pad a digit string with `'0'` up to the given length. -/
def padLeftZeros (s : String) (n : ℕ) : String :=
  String.mk (List.replicate (n - s.length) '0') ++ s

/-- Modelled from the spec: the plain-notation decimal string of a nonnegative
rational — integer part, then the first 40 fractional digits with trailing
zeros removed. This is `Decimal.prototype.valueOf` for the values compared in
`getMaxWithdrawAmount` (no exponent notation, terminating expansions). -/
def ratDecimalStringNonneg (q : ℚ) : String :=
  let ip : ℕ := q.num.toNat / q.den
  let fracDigits : ℕ := q.num.toNat * 10 ^ 40 / q.den % 10 ^ 40
  let fs := dropTrailingZeros (padLeftZeros (Nat.repr fracDigits) 40)
  if fs = "" then Nat.repr ip else Nat.repr ip ++ "." ++ fs

/-- Modelled from the spec: decimal.js `valueOf`, signed. -/
def ratDecimalString (q : ℚ) : String :=
  if q < 0 then "-" ++ ratDecimalStringNonneg (-q) else ratDecimalStringNonneg q

/-- Lexicographic strict order on UTF-16 code units, as JS `<` on strings. -/
def charListLt : List Char → List Char → Bool
  | [], [] => false
  | [], _ :: _ => true
  | _ :: _, [] => false
  | c :: cs, d :: ds =>
    if c.val < d.val then true
    else if d.val < c.val then false
    else charListLt cs ds

/-- JS `a >= b` applied to two decimal.js objects: their `valueOf` strings are
compared, so the comparison is `!(String(a) < String(b))`, a lexicographic —
not numeric — test. -/
def jsDecGe (a b : ℚ) : Bool :=
  ! charListLt (ratDecimalString a).data (ratDecimalString b).data

namespace KaminoObligation

/-- obligation.ts `getMaxWithdrawAmount`. The borrow-limit guard on line 908 is
the raw JS `>=` between two decimal objects, modelled by `jsDecGe`; every other
comparison in the method uses the decimal library's numeric methods. -/
def getMaxWithdrawAmount (obl : KaminoObligation) (market : KaminoMarket)
    (tokenMint : ℕ) (slot : ℕ) : Except String ℚ :=
  match getReserveByMint market tokenMint with
  | none => .error "Reserve not found"
  | some reserve =>
    match (obl.deposits.find? (fun kv => kv.1 == reserve.address)).map
        (fun kv => kv.2) with
    | none => .error "Deposit reserve not found"
    | some userDepositPosition =>
      let userDepositPositionAmount := userDepositPosition.amount
      if obl.refreshedStats.userTotalBorrowBorrowFactorAdjusted = 0 then
        .ok userDepositPositionAmount
      else
        let elevationGroupActivated :=
          reserve.state.config.elevationGroups.contains obl.state.elevationGroup
            && obl.state.elevationGroup != 0
        let reserveMaxLtv := if elevationGroupActivated then
            ((getElevationGroup market obl.state.elevationGroup).ltvPct : ℚ) / 100
          else KaminoReserve.statsLoanToValuePct reserve
        if jsDecGe obl.refreshedStats.userTotalBorrowBorrowFactorAdjusted
            obl.refreshedStats.borrowLimit then
          .ok 0
        else
          let maxWithdrawValue := if reserveMaxLtv = 0 then
              userDepositPositionAmount
            else
              (obl.refreshedStats.borrowLimit
                  - obl.refreshedStats.userTotalBorrowBorrowFactorAdjusted)
                / reserveMaxLtv * (995 / 1000)
          let maxWithdrawAmount := maxWithdrawValue
            / KaminoReserve.getOracleMarketPrice reserve
            * KaminoReserve.getMintFactor reserve
          let reserveAvailableLiquidity :=
            KaminoReserve.getLiquidityAvailableAmount reserve
          let withdrawalCapRemained :=
            KaminoReserve.getDepositWithdrawalCapCapacity reserve
              - KaminoReserve.getDepositWithdrawalCapCurrent reserve slot
          .ok (max 0 (min userDepositPositionAmount (min maxWithdrawAmount
            (min reserveAvailableLiquidity withdrawalCapRemained))))

end KaminoObligation

/-- A Boolean success test for the `Except`-embedded throwing functions. -/
def exceptIsOk {ε α : Type} : Except ε α → Bool
  | .ok _ => true
  | .error _ => false

/-- Nonnegativity of every stats field except the three recomputed last
(netAccountValue, loanToValue, leverage): the "floored at zero" fields. -/
def statsCoreNonneg (s : ObligationStats) : Prop :=
  0 ≤ s.userTotalDeposit ∧ 0 ≤ s.userTotalBorrow ∧
  0 ≤ s.userTotalBorrowBorrowFactorAdjusted ∧ 0 ≤ s.borrowLimit ∧
  0 ≤ s.borrowLiquidationLimit ∧ 0 ≤ s.borrowUtilization ∧
  0 ≤ s.liquidationLtv

/-- A small concrete reserve used by witnesses: one unit borrowed
(`2^60` scaled), ten units available, a flat zero curve, and the default
450 ms slot duration. -/
def witnessReserve : KaminoReserve :=
  { state :=
      { liquidity :=
          { mintPubkey := 1
            availableAmount := 10
            borrowedAmountSf := 2 ^ 60
            accumulatedProtocolFeesSf := 0
            accumulatedReferrerFeesSf := 0
            pendingReferrerFeesSf := 0
            mintDecimals := 0
            cumulativeBorrowRateBsf := [2 ^ 60, 0, 0, 0] }
        config :=
          { protocolTakeRatePct := 15
            hostFixedInterestRateBps := 0
            borrowFeeSf := 0
            borrowRateCurve := [⟨0, 0⟩]
            borrowLimit := 100
            borrowFactorPct := 100
            loanToValuePct := 50
            liquidationThresholdPct := 60
            elevationGroups := [0]
            disableUsageAsCollOutsideEmode := 0
            debtWithdrawalCap := ⟨0, 0⟩
            depositWithdrawalCap := ⟨0, 0⟩ }
        lastUpdate := { slot := 0 } }
    address := 1
    tokenOraclePrice := 1
    recentSlotDurationMs := 450 }

/-- The witness reserve with its configured elevation groups replaced. -/
def reserveWithGroups (gs : List ℕ) : KaminoReserve :=
  { witnessReserve with state.config.elevationGroups := gs }

/-- The witness reserve with its cumulative-borrow-rate limb array replaced. -/
def reserveWithLimbs (v : List ℕ) : KaminoReserve :=
  { witnessReserve with state.liquidity.cumulativeBorrowRateBsf := v }

/-- All-zero obligation stats. -/
def zeroStats : ObligationStats :=
  ⟨0, 0, 0, 0, 0, 0, 0, 0, 0, 0, []⟩

/-- The witness reserve re-addressed for the obligation simulations:
liquidity mint 5, reserve address 9. -/
def simReserve : KaminoReserve :=
  { witnessReserve with state.liquidity.mintPubkey := 5, address := 9 }

/-- An empty obligation outside any elevation group. -/
def oblSim : KaminoObligation :=
  { state := ⟨0⟩, refreshedStats := zeroStats, deposits := [], borrows := [] }

/-- A market holding only `simReserve`. -/
def marketSim : KaminoMarket := ⟨[], [simReserve]⟩

/-- The reserve used by the C4 evaluation: 100 units available and a deposit
withdrawal cap of 1 000 000 (current total 0). -/
def reserveC4 : KaminoReserve :=
  { simReserve with
    state.liquidity.availableAmount := 100
    state.config.depositWithdrawalCap := ⟨1000000, 0⟩ }

/-- The obligation used by the C4 evaluation: borrow-factor-adjusted debt of 9
against a borrow limit of 10 (numerically under the limit), with a deposit of
100 units in `reserveC4`. -/
def oblC4 : KaminoObligation :=
  { state := ⟨0⟩
    refreshedStats := { zeroStats with
      userTotalDeposit := 100
      userTotalBorrowBorrowFactorAdjusted := 9
      borrowLimit := 10 }
    deposits := [(9, ⟨9, 5, 100, 100⟩)]
    borrows := [] }

/-- A market holding only `reserveC4`. -/
def marketC4 : KaminoMarket := ⟨[], [reserveC4]⟩

end Klend

/-- C1: `approximateCompoundedInterest(rate, elapsedSlots)` with
`base = rate / slotsPerYear` returns 1, `1+base`, `(1+base)(1+base)`,
`(1+base)(1+base)(1+base)`, and the square of `(1+base)(1+base)` for 0–4
elapsed slots; for `elapsedSlots ≥ 5` it returns exactly the third-order Taylor
expansion `1 + n·base + n(n-1)/2·base² + n(n-1)(n-2)/6·base³`; and for
0–4 elapsed slots the value equals the closed-form power `(1+base)^n`. -/
theorem C1_approximateCompoundedInterest (rate : ℚ) :
    Klend.approximateCompoundedInterest rate 0 = 1 ∧
    Klend.approximateCompoundedInterest rate 1 = 1 + rate / Klend.SLOTS_PER_YEAR ∧
    Klend.approximateCompoundedInterest rate 2 =
      (1 + rate / Klend.SLOTS_PER_YEAR) * (1 + rate / Klend.SLOTS_PER_YEAR) ∧
    Klend.approximateCompoundedInterest rate 3 =
      (1 + rate / Klend.SLOTS_PER_YEAR) * (1 + rate / Klend.SLOTS_PER_YEAR) *
        (1 + rate / Klend.SLOTS_PER_YEAR) ∧
    Klend.approximateCompoundedInterest rate 4 =
      ((1 + rate / Klend.SLOTS_PER_YEAR) * (1 + rate / Klend.SLOTS_PER_YEAR)) *
        ((1 + rate / Klend.SLOTS_PER_YEAR) * (1 + rate / Klend.SLOTS_PER_YEAR)) ∧
    (∀ n : ℕ, 5 ≤ n →
      Klend.approximateCompoundedInterest rate n =
        1 + (n : ℚ) * (rate / Klend.SLOTS_PER_YEAR)
          + (n : ℚ) * ((n : ℚ) - 1) / 2 * (rate / Klend.SLOTS_PER_YEAR) ^ 2
          + (n : ℚ) * ((n : ℚ) - 1) * ((n : ℚ) - 2) / 6
              * (rate / Klend.SLOTS_PER_YEAR) ^ 3) ∧
    (∀ n : ℕ, n ≤ 4 →
      Klend.approximateCompoundedInterest rate n =
        (1 + rate / Klend.SLOTS_PER_YEAR) ^ n) := by
  refine ⟨rfl, ?_, ?_, ?_, ?_, ?_, ?_⟩
  · simp [Klend.approximateCompoundedInterest]; ring
  · simp [Klend.approximateCompoundedInterest]; ring
  · simp [Klend.approximateCompoundedInterest]; ring
  · simp [Klend.approximateCompoundedInterest]; ring
  · intro n hn
    have h0 : n ≠ 0 := by omega
    have h1 : n ≠ 1 := by omega
    have h2 : n ≠ 2 := by omega
    have h3 : n ≠ 3 := by omega
    have h4 : n ≠ 4 := by omega
    simp only [Klend.approximateCompoundedInterest, h0, h1, h2, h3, h4, if_false]
    ring
  · intro n hn
    interval_cases n <;> simp [Klend.approximateCompoundedInterest] <;> ring

/-- Witness for C1 at a concrete rate and slot counts (rate chosen so that
`base = 1`): the Taylor branch at 7 slots and the power form at 3 slots. -/
theorem C1_witness :
    Klend.approximateCompoundedInterest 63072000 7 = 64 ∧
    Klend.approximateCompoundedInterest 63072000 3 = 8 := by
  have h := C1_approximateCompoundedInterest 63072000
  constructor
  · rw [h.2.2.2.2.2.1 7 (by norm_num)]
    norm_num [Klend.SLOTS_PER_YEAR]
  · rw [h.2.2.2.2.2.2 3 (by norm_num)]
    norm_num [Klend.SLOTS_PER_YEAR]

/-- C2: for every reserve state and `slotsElapsed ≥ 1` (with the current
borrow APR `apr` as evaluated from the curve), `compoundInterest` returns
`newDebt = previousDebt · combinedMultiplier`,
`fixedHostFee = previousDebt · (fixedMultiplier − 1)`,
`netNewDebt = newDebt − previousDebt − fixedHostFee`,
`variableProtocolFee = netNewDebt · protocolTakeRate`,
`referralFee = netNewDebt · protocolTakeRate · referralFeeBps/10000`,
`newAccProtocolFees = variableProtocolFee + fixedHostFee − referralFee +
previousAccumulatedFees` and
`pendingReferralFees = previousPendingReferrerFees + referralFee`; and
`getEstimatedDebtAndSupply` at `lastUpdateSlot + slotsElapsed` returns
`totalSupply = availableLiquidity + newDebt − newAccProtocolFees −
previousAccumulatedReferrerFees − newPendingReferralFees`. -/
theorem C2_compoundInterest (r : Klend.KaminoReserve) (n refBps : ℕ) (apr : ℚ)
    (hapr : Klend.KaminoReserve.calculateBorrowAPR r = Except.ok apr)
    (hn : 1 ≤ n) :
    ∃ out : Klend.CompoundResult,
      Klend.KaminoReserve.compoundInterest r n refBps = Except.ok out ∧
      out.newDebt = Klend.KaminoReserve.getBorrowedAmount r *
        Klend.approximateCompoundedInterest
          (apr + Klend.KaminoReserve.getFixedHostInterestRate r) n ∧
      out.fixedHostFee = Klend.KaminoReserve.getBorrowedAmount r *
        (Klend.approximateCompoundedInterest
          (Klend.KaminoReserve.getFixedHostInterestRate r) n - 1) ∧
      out.netNewDebt = out.newDebt - Klend.KaminoReserve.getBorrowedAmount r
        - out.fixedHostFee ∧
      out.variableProtocolFee = out.netNewDebt *
        ((r.state.config.protocolTakeRatePct : ℚ) / 100) ∧
      out.maxReferralFees = out.netNewDebt *
        ((r.state.config.protocolTakeRatePct : ℚ) / 100) *
        ((refBps : ℚ) / 10000) ∧
      out.newAccProtocolFees = out.variableProtocolFee + out.fixedHostFee
        - out.maxReferralFees
        + Klend.KaminoReserve.getAccumulatedProtocolFees r ∧
      out.pendingReferralFees = Klend.KaminoReserve.getPendingReferrerFees r
        + out.maxReferralFees ∧
      Klend.KaminoReserve.getEstimatedDebtAndSupply r
          (r.state.lastUpdate.slot + n) refBps =
        Except.ok
          ⟨out.newDebt,
            Klend.KaminoReserve.getLiquidityAvailableAmount r + out.newDebt
              - out.newAccProtocolFees
              - Klend.KaminoReserve.getAccumulatedReferrerFees r
              - out.pendingReferralFees⟩ := by
  have hslots : r.state.lastUpdate.slot + n - r.state.lastUpdate.slot = n := by
    omega
  simp only [Klend.KaminoReserve.compoundInterest, hapr, Except.map]
  refine ⟨_, rfl, rfl, ?_, rfl, rfl, ?_, rfl, rfl, ?_⟩
  · ring
  · ring
  · simp only [Klend.KaminoReserve.getEstimatedDebtAndSupply, hslots,
      if_neg (by omega : ¬ n = 0), Klend.KaminoReserve.compoundInterest,
      hapr, Except.map]

/-- Witness for C2: the concrete reserve with a flat zero curve (so the
evaluated APR is 0), two elapsed slots and 100 referral bps. -/
theorem C2_witness :
    ∃ out : Klend.CompoundResult,
      Klend.KaminoReserve.compoundInterest Klend.witnessReserve 2 100 =
        Except.ok out ∧
      out.newDebt = Klend.KaminoReserve.getBorrowedAmount Klend.witnessReserve *
        Klend.approximateCompoundedInterest
          (0 + Klend.KaminoReserve.getFixedHostInterestRate Klend.witnessReserve)
          2 ∧
      out.fixedHostFee =
        Klend.KaminoReserve.getBorrowedAmount Klend.witnessReserve *
        (Klend.approximateCompoundedInterest
          (Klend.KaminoReserve.getFixedHostInterestRate Klend.witnessReserve) 2
          - 1) ∧
      out.netNewDebt = out.newDebt
        - Klend.KaminoReserve.getBorrowedAmount Klend.witnessReserve
        - out.fixedHostFee ∧
      out.variableProtocolFee = out.netNewDebt *
        ((Klend.witnessReserve.state.config.protocolTakeRatePct : ℚ) / 100) ∧
      out.maxReferralFees = out.netNewDebt *
        ((Klend.witnessReserve.state.config.protocolTakeRatePct : ℚ) / 100) *
        ((100 : ℚ) / 10000) ∧
      out.newAccProtocolFees = out.variableProtocolFee + out.fixedHostFee
        - out.maxReferralFees
        + Klend.KaminoReserve.getAccumulatedProtocolFees Klend.witnessReserve ∧
      out.pendingReferralFees =
        Klend.KaminoReserve.getPendingReferrerFees Klend.witnessReserve
        + out.maxReferralFees ∧
      Klend.KaminoReserve.getEstimatedDebtAndSupply Klend.witnessReserve
          (Klend.witnessReserve.state.lastUpdate.slot + 2) 100 =
        Except.ok
          ⟨out.newDebt,
            Klend.KaminoReserve.getLiquidityAvailableAmount Klend.witnessReserve
              + out.newDebt - out.newAccProtocolFees
              - Klend.KaminoReserve.getAccumulatedReferrerFees
                  Klend.witnessReserve
              - out.pendingReferralFees⟩ :=
  C2_compoundInterest Klend.witnessReserve 2 100 0
    (by
      norm_num [Klend.KaminoReserve.calculateBorrowAPR,
        Klend.KaminoReserve.calculateUtilizationRate,
        Klend.KaminoReserve.getTotalSupply,
        Klend.KaminoReserve.getLiquidityAvailableAmount,
        Klend.KaminoReserve.getBorrowedAmount,
        Klend.KaminoReserve.getAccumulatedProtocolFees,
        Klend.KaminoReserve.getAccumulatedReferrerFees,
        Klend.KaminoReserve.getPendingReferrerFees, Klend.fractionToDecimal,
        Klend.witnessReserve, Klend.truncateBorrowCurve, Klend.getBorrowRate,
        Klend.ONE_HUNDRED_PCT_IN_BPS, Klend.KaminoReserve.slotAdjustmentFactor,
        Klend.SLOTS_PER_SECOND, Except.map])
    (by norm_num)

/-- C6: when the current slot is at or before the reserve's last-update slot
(zero slots elapsed), `getEstimatedTotalSupply` returns exactly
`getTotalSupply()`, for every `referralFeeBps`. -/
theorem C6_estimatedTotalSupply (r : Klend.KaminoReserve) (slot refBps : ℕ)
    (h : slot ≤ r.state.lastUpdate.slot) :
    Klend.KaminoReserve.getEstimatedTotalSupply r slot refBps =
      Except.ok (Klend.KaminoReserve.getTotalSupply r) := by
  have h0 : slot - r.state.lastUpdate.slot = 0 := Nat.sub_eq_zero_of_le h
  simp [Klend.KaminoReserve.getEstimatedTotalSupply,
    Klend.KaminoReserve.getEstimatedDebtAndSupply, h0, Except.map]

/-- Witness for C6: the concrete reserve queried at slot 0 (its last-update
slot) evaluates to its stale total supply, 11. -/
theorem C6_witness :
    Klend.KaminoReserve.getEstimatedTotalSupply Klend.witnessReserve 0 3 =
      Except.ok 11 :=
  (C6_estimatedTotalSupply Klend.witnessReserve 0 3 (Nat.zero_le _)).trans
    (by
      norm_num [Klend.KaminoReserve.getTotalSupply,
        Klend.KaminoReserve.getLiquidityAvailableAmount,
        Klend.KaminoReserve.getBorrowedAmount,
        Klend.KaminoReserve.getAccumulatedProtocolFees,
        Klend.KaminoReserve.getAccumulatedReferrerFees,
        Klend.KaminoReserve.getPendingReferrerFees, Klend.fractionToDecimal,
        Klend.witnessReserve])

/-- C9: `truncateBorrowCurve` returns exactly the spec's longest prefix ending
at the first 100%-utilization point (everything strictly after that point
excluded, everything before it included, the whole list when no point reaches
100%), with each point mapped to `(u/10000, r/10000)`. -/
theorem C9_truncateBorrowCurve (points : List Klend.CurvePoint) :
    Klend.truncateBorrowCurve points = Klend.specTruncateBorrowCurve points := by
  induction points with
  | nil => rfl
  | cons p rest ih =>
    by_cases h : p.utilizationRateBps = Klend.ONE_HUNDRED_PCT_IN_BPS
    · simp [Klend.truncateBorrowCurve, Klend.specTruncateBorrowCurve, h,
        Klend.ONE_HUNDRED_PCT_IN_BPS]
    · simp only [Klend.truncateBorrowCurve, Klend.specTruncateBorrowCurve,
        List.takeWhile_cons, List.dropWhile_cons, bne_iff_ne, ne_eq, h,
        not_false_eq_true, if_true, decide_not, if_pos, List.cons_append,
        List.map_cons] at ih ⊢
      simp [h, ih, Klend.ONE_HUNDRED_PCT_IN_BPS]

/-- Key-membership of the first-occurrence fold used to model the JS `Map`. -/
theorem mem_foldl_insertOnce (l : List ℕ) (g : ℕ) :
    ∀ acc : List ℕ, g ∈ l.foldl Klend.insertOnce acc ↔ g ∈ acc ∨ g ∈ l := by
  induction l with
  | nil => intro acc; simp
  | cons x xs ih =>
    intro acc
    have hio : g ∈ Klend.insertOnce acc x ↔ g ∈ acc ∨ g = x := by
      unfold Klend.insertOnce
      by_cases hx : x ∈ acc
      · simp only [hx, if_true]
        constructor
        · exact Or.inl
        · rintro (hg | rfl)
          · exact hg
          · exact hx
      · simp [hx]
    simp only [List.foldl_cons, ih, hio, List.mem_cons]
    tauto

/-- Counting a non-zero value is unaffected by filtering the zeros out. -/
theorem count_filter_nonzero (g : ℕ) (hg : g ≠ 0) (l : List ℕ) :
    (l.filter (fun x => x != 0)).count g = l.count g := by
  induction l with
  | nil => rfl
  | cons x xs ih =>
    by_cases hx : x = 0
    · subst hx
      have : (0 : ℕ) ≠ g := fun e => hg e.symm
      simp [List.filter_cons, List.count_cons, ih, this]
    · simp [List.filter_cons, hx, List.count_cons, ih]

/-- Under per-reserve duplicate-freedom, the occurrence count of a non-zero
group across all reserves equals the number of reserves listing it. -/
theorem count_join_groups (g : ℕ) (hg : g ≠ 0) :
    ∀ reserves : List Klend.KaminoReserve,
      (∀ r ∈ reserves, r.state.config.elevationGroups.Nodup) →
      ((reserves.map
          (fun r => r.state.config.elevationGroups.filter
            (fun x => x != 0))).flatten).count g =
        (reserves.filter
          (fun r => decide (g ∈ r.state.config.elevationGroups))).length := by
  intro reserves
  induction reserves with
  | nil => intro _; rfl
  | cons r rs ih =>
    intro hnd
    have hr : r.state.config.elevationGroups.Nodup := hnd r (by simp)
    have hrs : ∀ x ∈ rs, x.state.config.elevationGroups.Nodup :=
      fun x hx => hnd x (by simp [hx])
    simp only [List.map_cons, List.flatten_cons, List.count_append,
      List.filter_cons]
    rw [count_filter_nonzero g hg]
    by_cases hmem : g ∈ r.state.config.elevationGroups
    · have h1 : r.state.config.elevationGroups.count g = 1 :=
        List.count_eq_one_of_mem hr hmem
      simp [hmem, h1, ih hrs]
      omega
    · have h0 : r.state.config.elevationGroups.count g = 0 :=
        List.count_eq_zero.mpr hmem
      simp [hmem, h0, ih hrs]

/-- C7 counterexample: the code counts occurrences, not reserves. With reserve
A listing group 7 twice and reserve B not listing it, 7 is in the result for
[A, B] although only one of the two reserves lists it, so the claimed
"iff the number of reserves listing the group equals the total" is false. -/
theorem C7_counterexample :
    7 ∈ Klend.KaminoObligation.getElevationGroupsForReserves
        [Klend.reserveWithGroups [7, 7], Klend.reserveWithGroups []] ∧
    ¬ (([Klend.reserveWithGroups [7, 7], Klend.reserveWithGroups []].filter
          (fun r => decide (7 ∈ r.state.config.elevationGroups))).length =
        ([Klend.reserveWithGroups [7, 7],
          Klend.reserveWithGroups []] : List Klend.KaminoReserve).length) := by
  constructor
  · decide
  · decide

/-- C7 amended: provided each reserve's configured `elevationGroups` list is
duplicate-free, `getElevationGroupsForReserves` contains a group id iff the id
is non-zero, the input list is non-empty, and the number of input reserves
listing the id equals the total number of input reserves (so it is exactly the
set of non-zero ids every input reserve lists). -/
theorem C7_amended (reserves : List Klend.KaminoReserve) (g : ℕ)
    (hnd : ∀ r ∈ reserves, r.state.config.elevationGroups.Nodup) :
    g ∈ Klend.KaminoObligation.getElevationGroupsForReserves reserves ↔
      g ≠ 0 ∧ reserves ≠ [] ∧
      (reserves.filter
        (fun r => decide (g ∈ r.state.config.elevationGroups))).length =
        reserves.length := by
  unfold Klend.KaminoObligation.getElevationGroupsForReserves
  simp only [List.mem_filter, mem_foldl_insertOnce, List.not_mem_nil,
    false_or, List.mem_flatten, List.mem_map, decide_eq_true_eq]
  constructor
  · rintro ⟨⟨gl, ⟨r, hr, rfl⟩, hgl⟩, hcount⟩
    rw [List.mem_filter] at hgl
    obtain ⟨hmem, hnz⟩ := hgl
    have hg : g ≠ 0 := by simpa using hnz
    refine ⟨hg, by rintro rfl; exact (List.not_mem_nil r) hr, ?_⟩
    rw [← count_join_groups g hg reserves hnd]
    exact hcount
  · rintro ⟨hg, hne, hlen⟩
    have hcount := count_join_groups g hg reserves hnd
    have hall : reserves.filter
        (fun r => decide (g ∈ r.state.config.elevationGroups)) = reserves :=
      List.Sublist.eq_of_length (List.filter_sublist _) hlen
    obtain ⟨r0, hr0⟩ := List.exists_mem_of_ne_nil reserves hne
    have hr0g : g ∈ r0.state.config.elevationGroups := by
      have : r0 ∈ reserves.filter
          (fun r => decide (g ∈ r.state.config.elevationGroups)) := by
        rw [hall]; exact hr0
      simpa using (List.mem_filter.mp this).2
    refine ⟨⟨_, ⟨r0, hr0, rfl⟩, ?_⟩, ?_⟩
    · rw [List.mem_filter]
      exact ⟨hr0g, by simpa using hg⟩
    · rw [hcount]; exact hlen

/-- Witness for C7's amended claim: the spec's own example — with A listing
group 7 (once) and B listing nothing, [A] qualifies for 7 and [A, B] does
not. -/
theorem C7_witness :
    7 ∈ Klend.KaminoObligation.getElevationGroupsForReserves
        [Klend.reserveWithGroups [7]] ∧
    7 ∉ Klend.KaminoObligation.getElevationGroupsForReserves
        [Klend.reserveWithGroups [7], Klend.reserveWithGroups []] := by
  constructor
  · exact (C7_amended [Klend.reserveWithGroups [7]] 7 (by decide)).mpr (by decide)
  · intro h
    have := (C7_amended [Klend.reserveWithGroups [7],
      Klend.reserveWithGroups []] 7 (by decide)).mp h
    revert this
    decide

/-- The obligation-side loop accumulates the plain sum: the shift it computes
is discarded. -/
theorem cumulativeLoop_eq_sum (l : List ℕ) :
    ∀ acc : ℕ, Klend.KaminoObligation.getCumulativeBorrowRateLoop l acc =
      acc + l.sum := by
  induction l with
  | nil => intro acc; simp [Klend.KaminoObligation.getCumulativeBorrowRateLoop]
  | cons v rest ih =>
    intro acc
    simp [Klend.KaminoObligation.getCumulativeBorrowRateLoop, ih]
    omega

/-- The reserve-side add-then-shift fold of an all-zero limb list is zero. -/
theorem foldlShift_all_zero (l : List ℕ) (h : ∀ x ∈ l, x = 0) :
    l.foldl (fun prev curr => (prev + curr) / 2 ^ 64) 0 = 0 := by
  induction l with
  | nil => rfl
  | cons x xs ih =>
    have hx : x = 0 := h x (by simp)
    subst hx
    simpa using ih (fun y hy => h y (by simp [hy]))

/-- C10 counterexample: on the limb array [1, 0, 0, 0] the reserve-side
reduction returns 0 while the obligation-side static reduction returns
`1/2^60` (its `shrn(64)` result is discarded), and the obligation-side call
leaves the stored limb array reversed — so neither the value agreement nor the
no-mutation claim holds. -/
theorem C10_counterexample :
    Klend.KaminoReserve.getCumulativeBorrowRate
        (Klend.reserveWithLimbs [1, 0, 0, 0]) = 0 ∧
    (Klend.KaminoObligation.getCumulativeBorrowRate ⟨[1, 0, 0, 0]⟩).1 =
      1 / 2 ^ 60 ∧
    (0 : ℚ) ≠ 1 / 2 ^ 60 ∧
    (Klend.KaminoObligation.getCumulativeBorrowRate ⟨[1, 0, 0, 0]⟩).2 ≠
      [1, 0, 0, 0] := by
  refine ⟨?_, ?_, by norm_num, by decide⟩
  · have h1 : (((Klend.reserveWithLimbs
        [1, 0, 0, 0]).state.liquidity.cumulativeBorrowRateBsf.reverse).foldl
          (fun prev curr => (prev + curr) / 2 ^ 64) 0) = 0 := by decide
    unfold Klend.KaminoReserve.getCumulativeBorrowRate
    rw [h1]
    norm_num [Klend.fractionToDecimal]
  · have h2 : Klend.KaminoObligation.getCumulativeBorrowRateLoop
        (([1, 0, 0, 0] : List ℕ).reverse) 0 = 1 := by decide
    unfold Klend.KaminoObligation.getCumulativeBorrowRate
    simp only [h2]
    norm_num [Klend.fractionToDecimal]

/-- C10 amended: the obligation-side static `getCumulativeBorrowRate` returns
the un-shifted limb sum decoded as a 2^60 fraction and reverses the stored
limb array in place, while the reserve-side reduction reads a copy; the two
sides agree whenever every limb is zero. -/
theorem C10_amended (borrow : Klend.ObligationLiquidity) :
    (Klend.KaminoObligation.getCumulativeBorrowRate borrow).1 =
      Klend.fractionToDecimal borrow.cumulativeBorrowRateBsf.sum ∧
    (Klend.KaminoObligation.getCumulativeBorrowRate borrow).2 =
      borrow.cumulativeBorrowRateBsf.reverse ∧
    ∀ r : Klend.KaminoReserve,
      r.state.liquidity.cumulativeBorrowRateBsf =
        borrow.cumulativeBorrowRateBsf →
      (∀ x ∈ borrow.cumulativeBorrowRateBsf, x = 0) →
      Klend.KaminoReserve.getCumulativeBorrowRate r =
        (Klend.KaminoObligation.getCumulativeBorrowRate borrow).1 := by
  refine ⟨?_, rfl, ?_⟩
  · simp [Klend.KaminoObligation.getCumulativeBorrowRate,
      cumulativeLoop_eq_sum, List.sum_reverse]
  · intro r hr hz
    have hzrev : ∀ x ∈ borrow.cumulativeBorrowRateBsf.reverse, x = 0 := by
      intro x hx
      exact hz x (List.mem_reverse.mp hx)
    have hsum : borrow.cumulativeBorrowRateBsf.sum = 0 := List.sum_eq_zero hz
    have hfold := foldlShift_all_zero _ hzrev
    unfold Klend.KaminoReserve.getCumulativeBorrowRate
      Klend.KaminoObligation.getCumulativeBorrowRate
    rw [hr, hfold]
    simp [cumulativeLoop_eq_sum, List.sum_reverse, hsum]

/-- Witness for C10's amended claim at the all-zero limb array [0, 0]. -/
theorem C10_witness :
    (Klend.KaminoObligation.getCumulativeBorrowRate ⟨[0, 0]⟩).1 =
      Klend.fractionToDecimal (([0, 0] : List ℕ).sum) ∧
    Klend.KaminoReserve.getCumulativeBorrowRate (Klend.reserveWithLimbs [0, 0]) =
      (Klend.KaminoObligation.getCumulativeBorrowRate ⟨[0, 0]⟩).1 := by
  have h := C10_amended ⟨[0, 0]⟩
  exact ⟨h.1, h.2.2 (Klend.reserveWithLimbs [0, 0]) rfl (by decide)⟩

/-- The fold behind `lastWhere` yields `none` iff it started from `none` and no
element satisfies the predicate. -/
theorem foldl_lastWhere_none {α : Type} (p : α → Bool) (l : List α) :
    ∀ acc : Option α,
      l.foldl (fun acc x => if p x then some x else acc) acc = none ↔
        acc = none ∧ ∀ x ∈ l, p x = false := by
  induction l with
  | nil => intro acc; simp
  | cons y ys ih =>
    intro acc
    simp only [List.foldl_cons, ih]
    by_cases hy : p y
    · simp [hy]
    · simp only [Bool.not_eq_true] at hy
      simp [hy]

/-- A JS last-match loop finds nothing iff no element matches. -/
theorem lastWhere_eq_none_iff {α : Type} (p : α → Bool) (l : List α) :
    Klend.lastWhere p l = none ↔ ∀ x ∈ l, p x = false := by
  unfold Klend.lastWhere
  rw [foldl_lastWhere_none]
  simp

/-- C8: obligation simulation errors out exactly when: the leg functions
(`calculateSimulatedBorrow` / `calculateSimulatedDeposit`) find no reserve
whose liquidity mint is the requested one (the last-match loop yields nothing
iff no reserve has the mint), or the found reserve's configured
`elevationGroups` do not contain the obligation's current elevation group; and
`getSimulatedObligationStats` rejects the action tags outside
{deposit, withdraw, borrow, repay, depositAndBorrow, repayAndWithdraw}
(`mint` and `redeem`). All functions are pure: an error produces no result and
leaves the obligation value untouched. -/
theorem C8_simulationErrors :
    (∀ (obl : Klend.KaminoObligation) (s : Klend.ObligationStats)
        (b : Klend.PosMap) (amt : ℚ) (mint : ℕ)
        (rs : List Klend.KaminoReserve),
      Klend.exceptIsOk
          (Klend.KaminoObligation.calculateSimulatedBorrow obl s b amt mint rs)
        = true ↔
        ∃ r, Klend.lastWhere
            (fun kr => kr.state.liquidity.mintPubkey == mint) rs = some r ∧
          obl.state.elevationGroup ∈ r.state.config.elevationGroups) ∧
    (∀ (obl : Klend.KaminoObligation) (s : Klend.ObligationStats)
        (d : Klend.PosMap) (amt : ℚ) (mint : ℕ)
        (rs : List Klend.KaminoReserve) (market : Klend.KaminoMarket),
      Klend.exceptIsOk
          (Klend.KaminoObligation.calculateSimulatedDeposit obl s d amt mint rs
            market) = true ↔
        ∃ r, Klend.lastWhere
            (fun kr => kr.state.liquidity.mintPubkey == mint) rs = some r ∧
          obl.state.elevationGroup ∈ r.state.config.elevationGroups) ∧
    (∀ (mint : ℕ) (rs : List Klend.KaminoReserve),
      Klend.lastWhere (fun kr => kr.state.liquidity.mintPubkey == mint) rs =
          none ↔
        ∀ r ∈ rs, r.state.liquidity.mintPubkey ≠ mint) ∧
    (∀ (obl : Klend.KaminoObligation) (amt : ℚ) (mint : ℕ)
        (market : Klend.KaminoMarket) (rs : List Klend.KaminoReserve),
      Klend.exceptIsOk
          (Klend.KaminoObligation.getSimulatedObligationStats obl amt
            Klend.ActionType.mint mint market rs) = false ∧
      Klend.exceptIsOk
          (Klend.KaminoObligation.getSimulatedObligationStats obl amt
            Klend.ActionType.redeem mint market rs) = false) := by
  refine ⟨?_, ?_, ?_, ?_⟩
  · intro obl s b amt mint rs
    unfold Klend.KaminoObligation.calculateSimulatedBorrow
    cases h : Klend.lastWhere (fun kr => kr.state.liquidity.mintPubkey == mint)
        rs with
    | none => simp [Klend.exceptIsOk]
    | some reserve =>
      by_cases hm :
          obl.state.elevationGroup ∈ reserve.state.config.elevationGroups
      · simp [hm, Klend.exceptIsOk]
      · simp [hm, Klend.exceptIsOk]
  · intro obl s d amt mint rs market
    unfold Klend.KaminoObligation.calculateSimulatedDeposit
    cases h : Klend.lastWhere (fun kr => kr.state.liquidity.mintPubkey == mint)
        rs with
    | none => simp [Klend.exceptIsOk]
    | some reserve =>
      by_cases hm :
          obl.state.elevationGroup ∈ reserve.state.config.elevationGroups
      · simp [hm, Klend.exceptIsOk]
      · simp [hm, Klend.exceptIsOk]
  · intro mint rs
    rw [lastWhere_eq_none_iff]
    simp
  · intro obl amt mint market rs
    exact ⟨rfl, rfl⟩

/-- Witness for C8: a mint (77) absent from the reserve list makes the borrow
leg fail, and the `mint` action tag is rejected outright. -/
theorem C8_witness :
    Klend.exceptIsOk
        (Klend.KaminoObligation.calculateSimulatedBorrow Klend.oblSim
          Klend.zeroStats [] 5 77 [Klend.simReserve]) = false ∧
    Klend.exceptIsOk
        (Klend.KaminoObligation.getSimulatedObligationStats Klend.oblSim 5
          Klend.ActionType.mint 5 Klend.marketSim [Klend.simReserve]) =
      false := by
  constructor
  · cases hk : Klend.exceptIsOk
        (Klend.KaminoObligation.calculateSimulatedBorrow Klend.oblSim
          Klend.zeroStats [] 5 77 [Klend.simReserve]) with
    | false => rfl
    | true =>
      obtain ⟨r, hr, _⟩ := (C8_simulationErrors.1 Klend.oblSim Klend.zeroStats
        [] 5 77 [Klend.simReserve]).mp hk
      rw [show Klend.lastWhere
          (fun kr => kr.state.liquidity.mintPubkey == 77)
          [Klend.simReserve] = none from rfl] at hr
      exact Option.noConfusion hr
  · exact (C8_simulationErrors.2.2.2 Klend.oblSim 5 5 Klend.marketSim
      [Klend.simReserve]).1

/-- Zero-flooring produces nonnegative values. -/
theorem positiveOrZero_nonneg (x : ℚ) : 0 ≤ Klend.positiveOrZero x :=
  le_max_right x 0

/-- Guarded division of nonnegative values is nonnegative. -/
theorem divOrZero_nonneg (a b : ℚ) (ha : 0 ≤ a) (hb : 0 ≤ b) :
    0 ≤ Klend.divOrZero a b := by
  unfold Klend.divOrZero
  split
  · exact le_refl 0
  · exact div_nonneg ha hb

/-- A simulated borrow leg that succeeds leaves the deposit-side and
derived-ratio stats fields untouched and floors the two borrow totals. -/
theorem calcBorrow_ok_stats (obl : Klend.KaminoObligation)
    (s : Klend.ObligationStats) (b : Klend.PosMap) (amt : ℚ) (mint : ℕ)
    (rs : List Klend.KaminoReserve) (out : Klend.ObligationStats × Klend.PosMap)
    (h : Klend.KaminoObligation.calculateSimulatedBorrow obl s b amt mint rs =
      .ok out) :
    out.1.userTotalDeposit = s.userTotalDeposit ∧
    out.1.borrowLimit = s.borrowLimit ∧
    out.1.borrowLiquidationLimit = s.borrowLiquidationLimit ∧
    out.1.borrowUtilization = s.borrowUtilization ∧
    out.1.liquidationLtv = s.liquidationLtv ∧
    0 ≤ out.1.userTotalBorrow ∧
    0 ≤ out.1.userTotalBorrowBorrowFactorAdjusted := by
  unfold Klend.KaminoObligation.calculateSimulatedBorrow at h
  split at h
  · exact absurd h (by simp)
  · split at h
    · simp only [Except.ok.injEq] at h
      subst h
      exact ⟨rfl, rfl, rfl, rfl, rfl, positiveOrZero_nonneg _,
        positiveOrZero_nonneg _⟩
    · exact absurd h (by simp)

/-- A simulated deposit leg that succeeds leaves the borrow-side stats fields
untouched, floors the three deposit-side totals and recomputes a nonnegative
liquidation LTV. -/
theorem calcDeposit_ok_stats (obl : Klend.KaminoObligation)
    (s : Klend.ObligationStats) (d : Klend.PosMap) (amt : ℚ) (mint : ℕ)
    (rs : List Klend.KaminoReserve) (market : Klend.KaminoMarket)
    (out : Klend.ObligationStats × Klend.PosMap)
    (h : Klend.KaminoObligation.calculateSimulatedDeposit obl s d amt mint rs
      market = .ok out) :
    out.1.userTotalBorrow = s.userTotalBorrow ∧
    out.1.userTotalBorrowBorrowFactorAdjusted =
      s.userTotalBorrowBorrowFactorAdjusted ∧
    out.1.borrowUtilization = s.borrowUtilization ∧
    0 ≤ out.1.userTotalDeposit ∧
    0 ≤ out.1.borrowLimit ∧
    0 ≤ out.1.borrowLiquidationLimit ∧
    0 ≤ out.1.liquidationLtv := by
  unfold Klend.KaminoObligation.calculateSimulatedDeposit at h
  split at h
  · exact absurd h (by simp)
  · split at h
    · split at h
      · simp only [Except.ok.injEq] at h
        subst h
        exact ⟨rfl, rfl, rfl, positiveOrZero_nonneg _, positiveOrZero_nonneg _,
          positiveOrZero_nonneg _,
          divOrZero_nonneg _ _ (positiveOrZero_nonneg _)
            (positiveOrZero_nonneg _)⟩
      · exact absurd h (by simp)
    · split at h
      · simp only [Except.ok.injEq] at h
        subst h
        exact ⟨rfl, rfl, rfl, positiveOrZero_nonneg _, positiveOrZero_nonneg _,
          positiveOrZero_nonneg _,
          divOrZero_nonneg _ _ (positiveOrZero_nonneg _)
            (positiveOrZero_nonneg _)⟩
      · exact absurd h (by simp)

/-- The trailing recomputation: its three equations hold of the final record
and all other fields pass through unchanged. -/
theorem finalize_fields (s : Klend.ObligationStats) :
    (Klend.finalizeSimulatedStats s).netAccountValue =
      (Klend.finalizeSimulatedStats s).userTotalDeposit -
        (Klend.finalizeSimulatedStats s).userTotalBorrow ∧
    (Klend.finalizeSimulatedStats s).loanToValue =
      Klend.divOrZero
        (Klend.finalizeSimulatedStats s).userTotalBorrowBorrowFactorAdjusted
        (Klend.finalizeSimulatedStats s).userTotalDeposit ∧
    (Klend.finalizeSimulatedStats s).leverage =
      Klend.divOrZero (Klend.finalizeSimulatedStats s).userTotalDeposit
        (Klend.finalizeSimulatedStats s).netAccountValue ∧
    (Klend.finalizeSimulatedStats s).userTotalDeposit = s.userTotalDeposit ∧
    (Klend.finalizeSimulatedStats s).userTotalBorrow = s.userTotalBorrow ∧
    (Klend.finalizeSimulatedStats s).userTotalBorrowBorrowFactorAdjusted =
      s.userTotalBorrowBorrowFactorAdjusted ∧
    (Klend.finalizeSimulatedStats s).borrowLimit = s.borrowLimit ∧
    (Klend.finalizeSimulatedStats s).borrowLiquidationLimit =
      s.borrowLiquidationLimit ∧
    (Klend.finalizeSimulatedStats s).borrowUtilization = s.borrowUtilization ∧
    (Klend.finalizeSimulatedStats s).liquidationLtv = s.liquidationLtv :=
  ⟨rfl, rfl, rfl, rfl, rfl, rfl, rfl, rfl, rfl, rfl⟩

/-- The recomputation touches none of the zero-floored fields. -/
theorem statsCoreNonneg_finalize (s : Klend.ObligationStats)
    (h : Klend.statsCoreNonneg s) :
    Klend.statsCoreNonneg (Klend.finalizeSimulatedStats s) := h

/-- A successful borrow leg preserves core-field nonnegativity. -/
theorem calcBorrow_nonneg (obl : Klend.KaminoObligation)
    (s : Klend.ObligationStats) (b : Klend.PosMap) (amt : ℚ) (mint : ℕ)
    (rs : List Klend.KaminoReserve) (out : Klend.ObligationStats × Klend.PosMap)
    (h : Klend.KaminoObligation.calculateSimulatedBorrow obl s b amt mint rs =
      .ok out)
    (hs : Klend.statsCoreNonneg s) : Klend.statsCoreNonneg out.1 := by
  obtain ⟨e1, e2, e3, e4, e5, n1, n2⟩ := calcBorrow_ok_stats obl s b amt mint rs
    out h
  obtain ⟨d1, d2, d3, d4, d5, d6, d7⟩ := hs
  exact ⟨e1 ▸ d1, n1, n2, e2 ▸ d4, e3 ▸ d5, e4 ▸ d6, e5 ▸ d7⟩

/-- A successful deposit leg preserves core-field nonnegativity. -/
theorem calcDeposit_nonneg (obl : Klend.KaminoObligation)
    (s : Klend.ObligationStats) (d : Klend.PosMap) (amt : ℚ) (mint : ℕ)
    (rs : List Klend.KaminoReserve) (market : Klend.KaminoMarket)
    (out : Klend.ObligationStats × Klend.PosMap)
    (h : Klend.KaminoObligation.calculateSimulatedDeposit obl s d amt mint rs
      market = .ok out)
    (hs : Klend.statsCoreNonneg s) : Klend.statsCoreNonneg out.1 := by
  obtain ⟨e1, e2, e3, n1, n2, n3, n4⟩ := calcDeposit_ok_stats obl s d amt mint
    rs market out h
  obtain ⟨d1, d2, d3, d4, d5, d6, d7⟩ := hs
  exact ⟨n1, e1 ▸ d2, e2 ▸ d3, n2, n3, e3 ▸ d6, n4⟩

/-- C3 counterexample: on an empty obligation holding none of the mint, a
`repayAndWithdraw` of 5 leaves `userTotalDeposit = 5` — the deposit leg was run
with the *positive* amount — while the claimed behaviour (withdraw leg as a
negative deposit amount) would leave it floored at 0. -/
theorem C3_counterexample :
    (Klend.KaminoObligation.getSimulatedObligationStats Klend.oblSim 5
        Klend.ActionType.repayAndWithdraw 5 Klend.marketSim
        [Klend.simReserve]).toOption.map (fun res => res.stats.userTotalDeposit)
      = some 5 ∧
    ((Klend.KaminoObligation.calculateSimulatedBorrow Klend.oblSim
          Klend.oblSim.refreshedStats Klend.oblSim.borrows (-5) 5
          [Klend.simReserve]).bind (fun sb =>
        Klend.KaminoObligation.calculateSimulatedDeposit Klend.oblSim sb.1
          Klend.oblSim.deposits (-5) 5 [Klend.simReserve]
          Klend.marketSim)).toOption.map (fun sd => sd.1.userTotalDeposit)
      = some 0 ∧
    (5 : ℚ) ≠ 0 := by
  refine ⟨?_, ?_, by norm_num⟩
  · norm_num [Klend.KaminoObligation.getSimulatedObligationStats,
      Klend.KaminoObligation.calculateSimulatedBorrow,
      Klend.KaminoObligation.calculateSimulatedDeposit, Klend.lastWhere,
      List.foldl, Klend.mapSet, Klend.positiveOrZero, Klend.divOrZero,
      Klend.finalizeSimulatedStats, Klend.oblSim, Klend.zeroStats,
      Klend.marketSim, Klend.simReserve, Klend.witnessReserve,
      Klend.KaminoReserve.statsBorrowFactor,
      Klend.KaminoReserve.getOracleMarketPrice,
      Klend.KaminoReserve.getMintFactor, Klend.KaminoReserve.statsDecimals,
      Klend.KaminoReserve.statsLoanToValuePct,
      Klend.KaminoReserve.statsLiquidationThreshold, Klend.getElevationGroup,
      Except.map, Except.bind, Except.toOption, max_def]
  · norm_num [Klend.KaminoObligation.calculateSimulatedBorrow,
      Klend.KaminoObligation.calculateSimulatedDeposit, Klend.lastWhere,
      List.foldl, Klend.mapSet, Klend.positiveOrZero, Klend.divOrZero,
      Klend.oblSim, Klend.zeroStats, Klend.marketSim, Klend.simReserve,
      Klend.witnessReserve, Klend.KaminoReserve.statsBorrowFactor,
      Klend.KaminoReserve.getOracleMarketPrice,
      Klend.KaminoReserve.getMintFactor, Klend.KaminoReserve.statsDecimals,
      Klend.KaminoReserve.statsLoanToValuePct,
      Klend.KaminoReserve.statsLiquidationThreshold, Klend.getElevationGroup,
      Except.map, Except.bind, Except.toOption, max_def]

/-- C3 amended: in `getSimulatedObligationStats`, 'withdraw' is the deposit leg
with the negated amount and 'repay' the borrow leg with the negated amount; the
composite actions thread the stats of the first leg into the second, with
'repayAndWithdraw' running its deposit leg at the *positive* amount (the source
does not negate it); after any successful action the stats are finalized with
`netAccountValue = deposit − borrow`,
`loanToValue = borrowBF / deposit` (0 on zero deposit) and
`leverage = deposit / netAccountValue` (0 on zero net value), and — provided
the obligation's current stats are themselves floored — every stats field
other than those three recomputed ones is nonnegative (floored at zero). -/
theorem C3_amended (obl : Klend.KaminoObligation) (amount : ℚ) (mint : ℕ)
    (market : Klend.KaminoMarket) (reserves : List Klend.KaminoReserve) :
    Klend.KaminoObligation.getSimulatedObligationStats obl amount
        Klend.ActionType.withdraw mint market reserves =
      (Klend.KaminoObligation.calculateSimulatedDeposit obl obl.refreshedStats
          obl.deposits (-amount) mint reserves market).map
        (fun sd => ⟨Klend.finalizeSimulatedStats sd.1, sd.2, obl.borrows⟩) ∧
    Klend.KaminoObligation.getSimulatedObligationStats obl amount
        Klend.ActionType.repay mint market reserves =
      (Klend.KaminoObligation.calculateSimulatedBorrow obl obl.refreshedStats
          obl.borrows (-amount) mint reserves).map
        (fun sb => ⟨Klend.finalizeSimulatedStats sb.1, obl.deposits, sb.2⟩) ∧
    Klend.KaminoObligation.getSimulatedObligationStats obl amount
        Klend.ActionType.depositAndBorrow mint market reserves =
      (Klend.KaminoObligation.calculateSimulatedDeposit obl obl.refreshedStats
          obl.deposits amount mint reserves market).bind (fun sd =>
        (Klend.KaminoObligation.calculateSimulatedBorrow obl sd.1 obl.borrows
            amount mint reserves).map
          (fun sb => ⟨Klend.finalizeSimulatedStats sb.1, sd.2, sb.2⟩)) ∧
    Klend.KaminoObligation.getSimulatedObligationStats obl amount
        Klend.ActionType.repayAndWithdraw mint market reserves =
      (Klend.KaminoObligation.calculateSimulatedBorrow obl obl.refreshedStats
          obl.borrows (-amount) mint reserves).bind (fun sb =>
        (Klend.KaminoObligation.calculateSimulatedDeposit obl sb.1 obl.deposits
            amount mint reserves market).map
          (fun sd => ⟨Klend.finalizeSimulatedStats sd.1, sd.2, sb.2⟩)) ∧
    (∀ (action : Klend.ActionType) (res : Klend.SimulationResult),
      Klend.KaminoObligation.getSimulatedObligationStats obl amount action mint
          market reserves = .ok res →
      res.stats.netAccountValue =
        res.stats.userTotalDeposit - res.stats.userTotalBorrow ∧
      res.stats.loanToValue =
        Klend.divOrZero res.stats.userTotalBorrowBorrowFactorAdjusted
          res.stats.userTotalDeposit ∧
      res.stats.leverage = Klend.divOrZero res.stats.userTotalDeposit
        res.stats.netAccountValue ∧
      (Klend.statsCoreNonneg obl.refreshedStats →
        Klend.statsCoreNonneg res.stats)) := by
  refine ⟨rfl, rfl, rfl, rfl, ?_⟩
  intro action res h
  cases action with
  | deposit =>
    simp only [Klend.KaminoObligation.getSimulatedObligationStats] at h
    cases hd : Klend.KaminoObligation.calculateSimulatedDeposit obl
        obl.refreshedStats obl.deposits amount mint reserves market with
    | error e => rw [hd] at h; exact absurd h (by simp [Except.map])
    | ok sd =>
      rw [hd] at h
      simp only [Except.map, Except.ok.injEq] at h
      subst h
      exact ⟨(finalize_fields sd.1).1, (finalize_fields sd.1).2.1,
        (finalize_fields sd.1).2.2.1,
        fun hnn => statsCoreNonneg_finalize _
          (calcDeposit_nonneg obl obl.refreshedStats obl.deposits amount mint
            reserves market sd hd hnn)⟩
  | borrow =>
    simp only [Klend.KaminoObligation.getSimulatedObligationStats] at h
    cases hb : Klend.KaminoObligation.calculateSimulatedBorrow obl
        obl.refreshedStats obl.borrows amount mint reserves with
    | error e => rw [hb] at h; exact absurd h (by simp [Except.map])
    | ok sb =>
      rw [hb] at h
      simp only [Except.map, Except.ok.injEq] at h
      subst h
      exact ⟨(finalize_fields sb.1).1, (finalize_fields sb.1).2.1,
        (finalize_fields sb.1).2.2.1,
        fun hnn => statsCoreNonneg_finalize _
          (calcBorrow_nonneg obl obl.refreshedStats obl.borrows amount mint
            reserves sb hb hnn)⟩
  | repay =>
    simp only [Klend.KaminoObligation.getSimulatedObligationStats] at h
    cases hb : Klend.KaminoObligation.calculateSimulatedBorrow obl
        obl.refreshedStats obl.borrows (-amount) mint reserves with
    | error e => rw [hb] at h; exact absurd h (by simp [Except.map])
    | ok sb =>
      rw [hb] at h
      simp only [Except.map, Except.ok.injEq] at h
      subst h
      exact ⟨(finalize_fields sb.1).1, (finalize_fields sb.1).2.1,
        (finalize_fields sb.1).2.2.1,
        fun hnn => statsCoreNonneg_finalize _
          (calcBorrow_nonneg obl obl.refreshedStats obl.borrows (-amount) mint
            reserves sb hb hnn)⟩
  | withdraw =>
    simp only [Klend.KaminoObligation.getSimulatedObligationStats] at h
    cases hd : Klend.KaminoObligation.calculateSimulatedDeposit obl
        obl.refreshedStats obl.deposits (-amount) mint reserves market with
    | error e => rw [hd] at h; exact absurd h (by simp [Except.map])
    | ok sd =>
      rw [hd] at h
      simp only [Except.map, Except.ok.injEq] at h
      subst h
      exact ⟨(finalize_fields sd.1).1, (finalize_fields sd.1).2.1,
        (finalize_fields sd.1).2.2.1,
        fun hnn => statsCoreNonneg_finalize _
          (calcDeposit_nonneg obl obl.refreshedStats obl.deposits (-amount)
            mint reserves market sd hd hnn)⟩
  | depositAndBorrow =>
    simp only [Klend.KaminoObligation.getSimulatedObligationStats] at h
    cases hd : Klend.KaminoObligation.calculateSimulatedDeposit obl
        obl.refreshedStats obl.deposits amount mint reserves market with
    | error e => rw [hd] at h; exact absurd h (by simp [Except.bind])
    | ok sd =>
      rw [hd] at h
      simp only [Except.bind] at h
      cases hb : Klend.KaminoObligation.calculateSimulatedBorrow obl sd.1
          obl.borrows amount mint reserves with
      | error e => rw [hb] at h; exact absurd h (by simp [Except.map])
      | ok sb =>
        rw [hb] at h
        simp only [Except.map, Except.ok.injEq] at h
        subst h
        exact ⟨(finalize_fields sb.1).1, (finalize_fields sb.1).2.1,
          (finalize_fields sb.1).2.2.1,
          fun hnn => statsCoreNonneg_finalize _
            (calcBorrow_nonneg obl sd.1 obl.borrows amount mint reserves sb hb
              (calcDeposit_nonneg obl obl.refreshedStats obl.deposits amount
                mint reserves market sd hd hnn))⟩
  | repayAndWithdraw =>
    simp only [Klend.KaminoObligation.getSimulatedObligationStats] at h
    cases hb : Klend.KaminoObligation.calculateSimulatedBorrow obl
        obl.refreshedStats obl.borrows (-amount) mint reserves with
    | error e => rw [hb] at h; exact absurd h (by simp [Except.bind])
    | ok sb =>
      rw [hb] at h
      simp only [Except.bind] at h
      cases hd : Klend.KaminoObligation.calculateSimulatedDeposit obl sb.1
          obl.deposits amount mint reserves market with
      | error e => rw [hd] at h; exact absurd h (by simp [Except.map])
      | ok sd =>
        rw [hd] at h
        simp only [Except.map, Except.ok.injEq] at h
        subst h
        exact ⟨(finalize_fields sd.1).1, (finalize_fields sd.1).2.1,
          (finalize_fields sd.1).2.2.1,
          fun hnn => statsCoreNonneg_finalize _
            (calcDeposit_nonneg obl sb.1 obl.deposits amount mint reserves
              market sd hd
              (calcBorrow_nonneg obl obl.refreshedStats obl.borrows (-amount)
                mint reserves sb hb hnn))⟩
  | mint => exact absurd h (by simp [Klend.KaminoObligation.getSimulatedObligationStats])
  | redeem => exact absurd h (by simp [Klend.KaminoObligation.getSimulatedObligationStats])

/-- Witness for C3's amended claim: a concrete deposit of 5 into the empty
obligation, with the finalized fields and flooring checked on the result. -/
theorem C3_witness :
    ∃ res : Klend.SimulationResult,
      Klend.KaminoObligation.getSimulatedObligationStats Klend.oblSim 5
          Klend.ActionType.deposit 5 Klend.marketSim [Klend.simReserve] =
        .ok res ∧
      res.stats.netAccountValue =
        res.stats.userTotalDeposit - res.stats.userTotalBorrow ∧
      res.stats.loanToValue =
        Klend.divOrZero res.stats.userTotalBorrowBorrowFactorAdjusted
          res.stats.userTotalDeposit ∧
      res.stats.leverage = Klend.divOrZero res.stats.userTotalDeposit
        res.stats.netAccountValue ∧
      Klend.statsCoreNonneg res.stats := by
  have hrun : Klend.KaminoObligation.getSimulatedObligationStats Klend.oblSim 5
      Klend.ActionType.deposit 5 Klend.marketSim [Klend.simReserve] =
      Except.ok ⟨⟨5, 0, 0, 5/2, 3, 0, 5, 0, 3/5, 1, []⟩,
        [(9, ⟨9, 5, 5, 5⟩)], []⟩ := by
    norm_num [Klend.KaminoObligation.getSimulatedObligationStats,
      Klend.KaminoObligation.calculateSimulatedDeposit, Klend.lastWhere,
      List.foldl, Klend.mapSet, Klend.positiveOrZero, Klend.divOrZero,
      Klend.finalizeSimulatedStats, Klend.oblSim, Klend.zeroStats,
      Klend.marketSim, Klend.simReserve, Klend.witnessReserve,
      Klend.KaminoReserve.getOracleMarketPrice,
      Klend.KaminoReserve.getMintFactor, Klend.KaminoReserve.statsDecimals,
      Klend.KaminoReserve.statsLoanToValuePct,
      Klend.KaminoReserve.statsLiquidationThreshold, Klend.getElevationGroup,
      Except.map, max_def]
  obtain ⟨h1, h2, h3, h4⟩ :=
    (C3_amended Klend.oblSim 5 5 Klend.marketSim [Klend.simReserve]).2.2.2.2
      Klend.ActionType.deposit _ hrun
  exact ⟨_, hrun, h1, h2, h3,
    h4 (by norm_num [Klend.statsCoreNonneg, Klend.oblSim, Klend.zeroStats])⟩

/-- C4 (code bug): with borrow-factor-adjusted debt 9 numerically below the
borrow limit 10, the claim's third branch prescribes
`(10 − 9) / 0.5 × 0.995 = 1.99` withdrawable units (well under every clamp),
but the code's raw JS `>=` compares the decimal strings "9" and "10"
lexicographically, finds "9" ≥ "10", and returns 0. -/
theorem C4_code_divergence :
    Klend.KaminoObligation.getMaxWithdrawAmount Klend.oblC4 Klend.marketC4 5 0 =
      Except.ok 0 ∧
    Klend.jsDecGe 9 10 = true ∧
    (9 : ℚ) < 10 ∧
    max 0 (min 100 (min (((10 : ℚ) - 9) / ((1 : ℚ) / 2) * (995 / 1000) / 1 * 1)
      (min 100 1000000))) = 199 / 100 ∧
    (199 : ℚ) / 100 ≠ 0 := by
  have hge : Klend.jsDecGe 9 10 = true := by decide
  refine ⟨?_, hge, by norm_num, ?_, by norm_num⟩
  · simp only [Klend.KaminoObligation.getMaxWithdrawAmount,
      Klend.getReserveByMint]
    norm_num [Klend.oblC4, Klend.marketC4, Klend.reserveC4, Klend.simReserve,
      Klend.witnessReserve, Klend.zeroStats, List.find?, hge]
  · norm_num [min_def, max_def]

/-- Scaled-fraction decodings are nonnegative. -/
theorem fractionToDecimal_nonneg (n : ℕ) : 0 ≤ Klend.fractionToDecimal n := by
  unfold Klend.fractionToDecimal
  positivity

/-- Removing the inclusive origination fee (`x − x·f/(1+f)`) and flooring at
zero is monotone for a nonnegative fee rate. -/
theorem scaleFloor_mono (x y f : ℚ) (hf : 0 ≤ f) (h : x ≤ y) :
    max 0 (x - x * (f / (f + 1))) ≤ max 0 (y - y * (f / (f + 1))) := by
  have hpos : 0 < f + 1 := by linarith
  have hfr : f / (f + 1) ≤ 1 := by
    rw [div_le_one hpos]; linarith
  have h1 : 0 ≤ 1 - f / (f + 1) := by linarith
  have hx : x - x * (f / (f + 1)) = x * (1 - f / (f + 1)) := by ring
  have hy : y - y * (f / (f + 1)) = y * (1 - f / (f + 1)) := by ring
  rw [hx, hy]
  exact max_le_max le_rfl (mul_le_mul_of_nonneg_right h h1)

/-- A nonpositive pre-fee amount nets out to a zero max-borrow. -/
theorem scaleFloor_nonpos (x f : ℚ) (hf : 0 ≤ f) (hx : x ≤ 0) :
    max 0 (x - x * (f / (f + 1))) = 0 := by
  have hpos : 0 < f + 1 := by linarith
  have hfr : f / (f + 1) ≤ 1 := by
    rw [div_le_one hpos]; linarith
  have h1 : 0 ≤ 1 - f / (f + 1) := by linarith
  have hx2 : x - x * (f / (f + 1)) = x * (1 - f / (f + 1)) := by ring
  rw [hx2, max_eq_left]
  exact mul_nonpos_of_nonpos_of_nonneg hx h1

/-- The clamp chain of `getMaxBorrowAmount` is nonpositive whenever the
obligation borrow power is. -/
theorem iteMin_nonpos (P A D : ℚ) (c : Prop) [Decidable c] (hP : P ≤ 0) :
    (if c then P ⊓ A ⊓ D else P ⊓ A) ≤ 0 := by
  split_ifs
  · exact le_trans (min_le_left _ _) (le_trans (min_le_left _ _) hP)
  · exact le_trans (min_le_left _ _) hP

/-- C5: `getMaxBorrowAmount` resolves the reserve by mint and then computes
`maxBorrowForReserve`; with the obligation, market, mint and slot held fixed,
replacing the target reserve's `borrowLimit` by any larger value never
decreases the result, and replacing its `borrowFactorPct` by any larger value
never increases it (positivity of the base borrow factor and of the oracle
price keep the decimal divisions finite). -/
theorem C5_maxBorrowMonotone (obl : Klend.KaminoObligation) (slot : ℕ)
    (r : Klend.KaminoReserve) (l2 bf2 : ℕ)
    (hl : r.state.config.borrowLimit ≤ l2)
    (hbf0 : 0 < r.state.config.borrowFactorPct)
    (hbf : r.state.config.borrowFactorPct ≤ bf2)
    (hprice : 0 < r.tokenOraclePrice)
    (mint : ℕ) (m mL mB : Klend.KaminoMarket)
    (hm : Klend.getReserveByMint m mint = some r)
    (hmL : Klend.getReserveByMint mL mint =
      some { r with state.config.borrowLimit := l2 })
    (hmB : Klend.getReserveByMint mB mint =
      some { r with state.config.borrowFactorPct := bf2 }) :
    Klend.KaminoObligation.getMaxBorrowAmount obl m mint slot =
      Except.ok (Klend.KaminoObligation.maxBorrowForReserve obl r slot) ∧
    Klend.KaminoObligation.getMaxBorrowAmount obl mL mint slot =
      Except.ok (Klend.KaminoObligation.maxBorrowForReserve obl
        { r with state.config.borrowLimit := l2 } slot) ∧
    Klend.KaminoObligation.getMaxBorrowAmount obl mB mint slot =
      Except.ok (Klend.KaminoObligation.maxBorrowForReserve obl
        { r with state.config.borrowFactorPct := bf2 } slot) ∧
    Klend.KaminoObligation.maxBorrowForReserve obl r slot ≤
      Klend.KaminoObligation.maxBorrowForReserve obl
        { r with state.config.borrowLimit := l2 } slot ∧
    Klend.KaminoObligation.maxBorrowForReserve obl
        { r with state.config.borrowFactorPct := bf2 } slot ≤
      Klend.KaminoObligation.maxBorrowForReserve obl r slot := by
  refine ⟨by simp [Klend.KaminoObligation.getMaxBorrowAmount, hm],
    by simp [Klend.KaminoObligation.getMaxBorrowAmount, hmL],
    by simp [Klend.KaminoObligation.getMaxBorrowAmount, hmB], ?_, ?_⟩
  · simp only [Klend.KaminoObligation.maxBorrowForReserve,
      Klend.KaminoReserve.getBorrowFactor,
      Klend.KaminoReserve.getOracleMarketPrice,
      Klend.KaminoReserve.getMintFactor,
      Klend.KaminoReserve.getLiquidityAvailableAmount,
      Klend.KaminoReserve.statsReserveBorrowLimit,
      Klend.KaminoReserve.getBorrowedAmount,
      Klend.KaminoReserve.getDebtWithdrawalCapCapacity,
      Klend.KaminoReserve.getDebtWithdrawalCapCurrent,
      Klend.KaminoReserve.getBorrowFee]
    apply scaleFloor_mono _ _ _ (fractionToDecimal_nonneg _)
    have hcap : ((r.state.config.borrowLimit : ℚ) -
        Klend.fractionToDecimal r.state.liquidity.borrowedAmountSf) ≤
        ((l2 : ℚ) -
          Klend.fractionToDecimal r.state.liquidity.borrowedAmountSf) := by
      have h0 : (r.state.config.borrowLimit : ℚ) ≤ (l2 : ℚ) := by
        exact_mod_cast hl
      linarith
    split_ifs <;> first
      | exact le_rfl
      | gcongr
  · simp only [Klend.KaminoObligation.maxBorrowForReserve,
      Klend.KaminoReserve.getBorrowFactor,
      Klend.KaminoReserve.getOracleMarketPrice,
      Klend.KaminoReserve.getMintFactor,
      Klend.KaminoReserve.getLiquidityAvailableAmount,
      Klend.KaminoReserve.statsReserveBorrowLimit,
      Klend.KaminoReserve.getBorrowedAmount,
      Klend.KaminoReserve.getDebtWithdrawalCapCapacity,
      Klend.KaminoReserve.getDebtWithdrawalCapCurrent,
      Klend.KaminoReserve.getBorrowFee]
    cases heg : (r.state.config.elevationGroups.contains obl.state.elevationGroup
        && obl.state.elevationGroup != 0) with
    | true => simp [heg]
    | false =>
      simp only [heg, if_false, Bool.false_eq_true, and_true, ite_false]
      rcases le_or_lt 0 (obl.refreshedStats.borrowLimit -
          obl.refreshedStats.userTotalBorrowBorrowFactorAdjusted) with hN | hN
      · have hb1 : (0 : ℚ) < (r.state.config.borrowFactorPct : ℚ) / 100 := by
          have h0 : (0 : ℚ) < (r.state.config.borrowFactorPct : ℚ) := by
            exact_mod_cast hbf0
          linarith
        have hb2 : (r.state.config.borrowFactorPct : ℚ) / 100 ≤
            (bf2 : ℚ) / 100 := by
          have h0 : (r.state.config.borrowFactorPct : ℚ) ≤ (bf2 : ℚ) := by
            exact_mod_cast hbf
          linarith
        apply scaleFloor_mono _ _ _ (fractionToDecimal_nonneg _)
        split_ifs <;> gcongr
      · have hmf : (0 : ℚ) < 10 ^ r.state.liquidity.mintDecimals := by
          positivity
        have hb1 : (0 : ℚ) < (r.state.config.borrowFactorPct : ℚ) / 100 := by
          have h0 : (0 : ℚ) < (r.state.config.borrowFactorPct : ℚ) := by
            exact_mod_cast hbf0
          linarith
        have hb2 : (0 : ℚ) < (bf2 : ℚ) / 100 := by
          have h0 : (0 : ℚ) < (bf2 : ℚ) := by
            exact_mod_cast lt_of_lt_of_le hbf0 hbf
          linarith
        have hP1 : (obl.refreshedStats.borrowLimit -
            obl.refreshedStats.userTotalBorrowBorrowFactorAdjusted) /
              ((r.state.config.borrowFactorPct : ℚ) / 100) /
              r.tokenOraclePrice * 10 ^ r.state.liquidity.mintDecimals < 0 :=
          mul_neg_of_neg_of_pos
            (div_neg_of_neg_of_pos (div_neg_of_neg_of_pos hN hb1) hprice) hmf
        have hP2 : (obl.refreshedStats.borrowLimit -
            obl.refreshedStats.userTotalBorrowBorrowFactorAdjusted) /
              ((bf2 : ℚ) / 100) / r.tokenOraclePrice *
              10 ^ r.state.liquidity.mintDecimals < 0 :=
          mul_neg_of_neg_of_pos
            (div_neg_of_neg_of_pos (div_neg_of_neg_of_pos hN hb2) hprice) hmf
        rw [scaleFloor_nonpos _ _ (fractionToDecimal_nonneg _)
            (iteMin_nonpos _ _ _ _ hP2.le),
          scaleFloor_nonpos _ _ (fractionToDecimal_nonneg _)
            (iteMin_nonpos _ _ _ _ hP1.le)]

/-- Witness for C5: the concrete reserve with its borrow limit raised from 100
to 200 and, separately, its borrow factor raised from 100 to 200 pct. -/
theorem C5_witness :
    Klend.KaminoObligation.getMaxBorrowAmount Klend.oblSim Klend.marketSim 5 0 =
      Except.ok (Klend.KaminoObligation.maxBorrowForReserve Klend.oblSim
        Klend.simReserve 0) ∧
    Klend.KaminoObligation.getMaxBorrowAmount Klend.oblSim
        ⟨[], [{ Klend.simReserve with state.config.borrowLimit := 200 }]⟩ 5 0 =
      Except.ok (Klend.KaminoObligation.maxBorrowForReserve Klend.oblSim
        { Klend.simReserve with state.config.borrowLimit := 200 } 0) ∧
    Klend.KaminoObligation.getMaxBorrowAmount Klend.oblSim
        ⟨[], [{ Klend.simReserve with state.config.borrowFactorPct := 200 }]⟩
        5 0 =
      Except.ok (Klend.KaminoObligation.maxBorrowForReserve Klend.oblSim
        { Klend.simReserve with state.config.borrowFactorPct := 200 } 0) ∧
    Klend.KaminoObligation.maxBorrowForReserve Klend.oblSim Klend.simReserve 0 ≤
      Klend.KaminoObligation.maxBorrowForReserve Klend.oblSim
        { Klend.simReserve with state.config.borrowLimit := 200 } 0 ∧
    Klend.KaminoObligation.maxBorrowForReserve Klend.oblSim
        { Klend.simReserve with state.config.borrowFactorPct := 200 } 0 ≤
      Klend.KaminoObligation.maxBorrowForReserve Klend.oblSim
        Klend.simReserve 0 :=
  C5_maxBorrowMonotone Klend.oblSim 0 Klend.simReserve 200 200
    (by decide) (by decide) (by decide)
    (by norm_num [Klend.simReserve, Klend.witnessReserve])
    5 Klend.marketSim
    ⟨[], [{ Klend.simReserve with state.config.borrowLimit := 200 }]⟩
    ⟨[], [{ Klend.simReserve with state.config.borrowFactorPct := 200 }]⟩
    rfl rfl rfl
